import Mathlib

/-!
Verification development for the RustyScheme evaluation engine
(`src/interpreter.rs`): value model, environment chain, native-procedure
table and the tree-walking evaluator, embedded shallowly in Lean.

Modelling conventions:
  * Rust's `Rc<RefCell<Environment>>` graph is modelled as an arena
    (`Store` = list of `EnvNode`); an environment reference is an index
    into the arena, and every mutation is explicit store passing.
    `Environment::new_child` appends a node, so a parent index is always
    smaller than its child's index (`StoreWF`).
  * `HashMap<String, Value>` is modelled as an association list with
    insert-replaces-existing semantics (`mapInsert`/`mapGet`); the
    interpreter only uses insert, contains_key and get, for which this
    model is observationally identical.
  * Machine integers are `Int` with explicit i64 range checks.  The crate
    is built with cargo's default (debug) profile, where `+ - *` abort on
    overflow and `/` aborts on a zero divisor or `i64::MIN / -1`; these
    host panics are the `ResT.panicked` outcome, kept distinct from
    `RuntimeError` (`ResT.rtErr`).
  * Evaluation is fuel-indexed (`evaluate_value fuel`): fuel bounds the
    nesting depth of `evaluate_value` calls, `ResT.fuelOut` is the
    out-of-fuel artifact, and claims quantify over sufficient fuel.
  * Native print/write primitives evaluate their argument (with its store
    effects) but their stdout text is not modelled; no claim concerns it.
  * The `customs` extension registry (`Box<Any>` values) is host-opaque
    state never touched by the native-procedure table and is omitted.
-/

/-- The tags of the predefined native procedures installed by
`Environment::new_root`.  In the source each is a Rust function pointer;
programs can only reach these fixed ones, so a tag enumeration is a
faithful model.  `Interpreter::define` host extensions are out of scope. -/
inductive NativeFn where
  | define | defineSyntaxRule | begin | letN | setBang | lambda | ifN
  | plus | minus | multiply | divide | lessthan | greaterthan | equal
  | andN | orN | isNull | listN | car | cdr | cons | append
  | quote | quasiquote | error | apply | eval
  | write | display | displayln | print | newline
deriving DecidableEq

mutual
/-- The `Value` enum of `interpreter.rs`. -/
inductive Value where
  | Symbol : String → Value
  | Integer : Int → Value
  | Boolean : Bool → Value
  | String : String → Value
  | List : List Value → Value
  | Procedure : Function → Value
  | Macro : List String → List Value → Value
  | CustomType : String → String → Value

/-- The `Function` enum: native procedures and Scheme closures.  A closure
captures parameter names, body and the index of its defining environment
node in the store. -/
inductive Function where
  | Native : NativeFn → Function
  | Scheme : List String → List Value → Nat → Function
end

/-- `Value::null()`: the empty list. -/
def Value.null : Value := Value.List []

/-- One environment node: optional parent index plus the variable map. -/
structure EnvNode where
  parent : Option Nat
  vars : List (String × Value)

/-- The arena of environment nodes; an environment reference is an index. -/
abbrev Store := List EnvNode

/-- HashMap lookup on the association-list model. -/
def mapGet : List (String × Value) → String → Option Value
  | [], _ => none
  | (k', v) :: rest, k => if k' = k then some v else mapGet rest k

/-- HashMap insert on the association-list model: replace an existing
binding for the key, else append. -/
def mapInsert : List (String × Value) → String → Value → List (String × Value)
  | [], k, v => [(k, v)]
  | (k', v') :: rest, k, v =>
    if k' = k then (k, v) :: rest else (k', v') :: mapInsert rest k v

/-- `Environment::get`: look the key up in the node, else recurse to the
parent.  The explicit fuel bounds the walk; callers pass `st.length`,
enough for every well-formed store (`StoreWF`). -/
def envGet : Nat → Store → Nat → String → Option Value
  | 0, _, _, _ => none
  | fuel+1, st, i, k =>
    match st[i]? with
    | none => none
    | some node =>
      match mapGet node.vars k with
      | some v => some v
      | none =>
        match node.parent with
        | some p => envGet fuel st p k
        | none => none

/-- `Environment::set`: mutate the binding in the nearest node (walking
upward) that already defines the key; `none` when no node does (the
caller raises the RuntimeError). -/
def envSet : Nat → Store → Nat → String → Value → Option Store
  | 0, _, _, _, _ => none
  | fuel+1, st, i, k, v =>
    match st[i]? with
    | none => none
    | some node =>
      if (mapGet node.vars k).isSome then
        some (st.set i { node with vars := mapInsert node.vars k v })
      else
        match node.parent with
        | some p => envSet fuel st p k v
        | none => none

/-- `Environment::define`: insert into the current node, always succeeds. -/
def envDefine (st : Store) (i : Nat) (k : String) (v : Value) : Store :=
  match st[i]? with
  | some node => st.set i { node with vars := mapInsert node.vars k v }
  | none => st

/-- `Environment::new_child`: allocate a fresh scope whose parent is the
given node; its index is the old store length. -/
def new_child (st : Store) (parent : Nat) : Store :=
  st ++ [{ parent := some parent, vars := [] }]

/-- `Environment::get_root`: walk the parent chain to its end. -/
def get_root : Nat → Store → Nat → Nat
  | 0, _, i => i
  | fuel+1, st, i =>
    match st[i]? with
    | some node =>
      match node.parent with
      | some p => get_root fuel st p
      | none => i
    | none => i

/-- Well-formed store: every parent index is smaller than its child's
index, as guaranteed by `new_child` allocation order. -/
def StoreWF (st : Store) : Prop :=
  ∀ (j : Nat) (node : EnvNode), st[j]? = some node → ∀ p, node.parent = some p → p < j

mutual
/-- The `fmt::Display` rendering of a `Value` (`{}`). -/
def display_fmt : Value → String
  | .Symbol s => s
  | .Integer n => toString n
  | .Boolean b => if b then "#t" else "#f"
  | .String s => s
  | .List vs => "(" ++ display_fmt_list vs ++ ")"
  | .Procedure _ => "#<procedure>"
  | .Macro _ _ => "#<macro>"
  | .CustomType t _ => "#<" ++ t ++ ">"

/-- Display renderings of list elements joined by a space. -/
def display_fmt_list : List Value → String
  | [] => ""
  | [v] => display_fmt v
  | v :: rest => display_fmt v ++ " " ++ display_fmt_list rest
end

mutual
/-- The `fmt::Debug` rendering of a `Value` (`{:?}`): strings quoted (the
source adds no escaping), lists with Debug elements, all else Display. -/
def debug_fmt : Value → String
  | .String s => "\"" ++ s ++ "\""
  | .List vs => "(" ++ debug_fmt_list vs ++ ")"
  | .Symbol s => s
  | .Integer n => toString n
  | .Boolean b => if b then "#t" else "#f"
  | .Procedure _ => "#<procedure>"
  | .Macro _ _ => "#<macro>"
  | .CustomType t _ => "#<" ++ t ++ ">"

/-- Debug renderings of list elements joined by a space. -/
def debug_fmt_list : List Value → String
  | [] => ""
  | [v] => debug_fmt v
  | v :: rest => debug_fmt v ++ " " ++ debug_fmt_list rest
end

/-- The `fmt::Debug` rendering of a `&[Value]` slice or `Vec<Value>`:
bracketed, comma-space separated Debug elements. -/
def slice_debug_fmt (vs : List Value) : String :=
  "[" ++ String.intercalate ", " (vs.map debug_fmt) ++ "]"

/-- One character of Rust's `fmt::Debug` for `str`.  The characters a
Scheme identifier can contain are rendered verbatim; the common escapes
are modelled (other control characters cannot reach error messages). -/
def rust_char_debug (c : Char) : String :=
  if c = '"' then "\\" ++ "\""
  else if c = '\\' then "\\" ++ "\\"
  else if c = '\n' then "\\" ++ "n"
  else if c = '\r' then "\\" ++ "r"
  else if c = '\t' then "\\" ++ "t"
  else String.singleton c

/-- Rust's `fmt::Debug` for `String` (`{:?}` on a string): quoted and
escaped. -/
def rust_string_debug (s : String) : String :=
  "\"" ++ String.join (s.toList.map rust_char_debug) ++ "\""

/-- i64 bounds for the debug-profile overflow checks. -/
def i64Min : Int := -(2 ^ 63)

/-- Largest i64 value. -/
def i64Max : Int := 2 ^ 63 - 1

/-- Whether an integer is representable as an i64. -/
def inI64 (x : Int) : Bool := decide (i64Min ≤ x) && decide (x ≤ i64Max)

/-- The result of an evaluation step: a value (or other payload) with the
updated store, a RuntimeError, a host panic, or out of fuel. -/
inductive ResT (α : Type) where
  | ok : α → Store → ResT α
  | rtErr : String → ResT α
  | panicked : String → ResT α
  | fuelOut : ResT α

/-- Evaluator results proper: payload is a `Value`. -/
abbrev Res := ResT Value

/-- Sequencing on results: errors, panics and fuel exhaustion propagate,
mirroring Rust's `try!`. -/
def ResT.andThen {α β : Type} : ResT α → (α → Store → ResT β) → ResT β
  | .ok v st, f => f v st
  | .rtErr m, _ => .rtErr m
  | .panicked m, _ => .panicked m
  | .fuelOut, _ => .fuelOut

/-- The type of the shared evaluation entry point threaded through the
helpers: value, environment index, store. -/
abbrev EvalFn := Value → Nat → Store → Res

/-- The loop of `evaluate_values`: `res` starts as null and is replaced by
each form's value in turn; the last value (or the first error) is the
result. -/
def evaluate_values_loop (recEval : EvalFn) : List Value → Value → Nat → Store → Res
  | [], res, _, st => .ok res st
  | v :: rest, _, env, st =>
    (recEval v env st).andThen fun r st' => evaluate_values_loop recEval rest r env st'

/-- `evaluate_values`: evaluate a sequence left to right, starting from the
null result and returning the value of the last form evaluated. -/
def evaluate_values (recEval : EvalFn) (values : List Value) (env : Nat) (st : Store) : Res :=
  evaluate_values_loop recEval values Value.null env st

/-- Whether a list form's head is the symbol `unquote`
(`vec[0] == Value::Symbol("unquote")`; the derived `PartialEq` comparison
against a `Symbol` is discriminant-first, so this match is exact). -/
def unquote_form : List Value → Bool
  | .Symbol u :: _ => u = "unquote"
  | _ => false

/-- The unquote arm shared by `quote_value` and the spec rendering: with
exactly one argument, evaluate it; otherwise the unquote arity
RuntimeError. -/
def unquote_arm (recEval : EvalFn) (vec : List Value) (env : Nat) (st : Store) : Res :=
  match vec with
  | [_, x] => recEval x env st
  | _ => .rtErr ("Must supply exactly one argument to unquote: " ++ slice_debug_fmt vec)

mutual
/-- `quote_value`: structural copy; inside a quasiquote an `(unquote X)`
form at any depth is replaced by evaluating `X` in the current
environment. -/
def quote_value (recEval : EvalFn) : Value → Bool → Nat → Store → Res
  | .Symbol s, _, _, st => .ok (.Symbol s) st
  | .Integer n, _, _, st => .ok (.Integer n) st
  | .Boolean b, _, _, st => .ok (.Boolean b) st
  | .String s, _, _, st => .ok (.String s) st
  | .List vec, quasi, env, st =>
    if quasi && unquote_form vec then unquote_arm recEval vec env st
    else
      (quote_value_list recEval vec quasi env st).andThen fun new_vec st' =>
        .ok (.List new_vec) st'
  | .Procedure f, _, _, st => .ok (.Procedure f) st
  | .Macro a b, _, _, st => .ok (.Macro a b) st
  | .CustomType t i, _, _, st => .ok (.CustomType t i) st

/-- Elementwise `quote_value` over a list, left to right, short-circuiting
on the first error (Rust's `map`/`collect` over `Result`). -/
def quote_value_list (recEval : EvalFn) : List Value → Bool → Nat → Store → ResT (List Value)
  | [], _, _, st => .ok [] st
  | v :: rest, quasi, env, st =>
    (quote_value recEval v quasi env st).andThen fun v' st' =>
      (quote_value_list recEval rest quasi env st').andThen fun rest' st'' =>
        .ok (v' :: rest') st''
end

/-- Build the macro substitution map: `zip` pairs parameter names with
argument expressions positionally (truncating at the shorter list) and
each pair is inserted in order. -/
def make_substitutions (pairs : List (String × Value)) : List (String × Value) :=
  pairs.foldl (fun m kv => mapInsert m kv.1 kv.2) []

mutual
/-- `expand_macro_substitute_value`: replace substituted symbols, descend
into lists, pass everything else through. -/
def expand_macro_substitute_value (substitutions : List (String × Value)) : Value → Value
  | .Symbol s =>
    match mapGet substitutions s with
    | some v => v
    | none => .Symbol s
  | .List l => .List (expand_macro_substitute_values substitutions l)
  | other => other

/-- `expand_macro_substitute_values` over a body template.  The Rust
signature returns `Result` but no path errors, so the model is pure. -/
def expand_macro_substitute_values (substitutions : List (String × Value)) : List Value → List Value
  | [] => []
  | v :: vs =>
    expand_macro_substitute_value substitutions v ::
      expand_macro_substitute_values substitutions vs
end

/-- `expand_macro` (renamed: the Rust name ends in a word this development
avoids): substitute the literal argument expressions into the body
template, then evaluate the expansion in the use-site environment. -/
def expand_macro_apply (recEval : EvalFn) (arg_names : List String) (body : List Value)
    (args : List Value) (env : Nat) (st : Store) : Res :=
  evaluate_values recEval
    (expand_macro_substitute_values (make_substitutions (arg_names.zip args)) body) env st

/-- The arity error raised when a closure receives the wrong number of
arguments. -/
def arity_error_msg (arg_names : List String) (args : List Value) : String :=
  "Must supply exactly " ++ toString arg_names.length ++ " arguments to function: " ++
    slice_debug_fmt args

/-- The argument-binding loop of Scheme-closure application: evaluate each
argument expression once, left to right, in the caller's environment and
define the result in the procedure's fresh scope. -/
def define_args (recEval : EvalFn) : List (String × Value) → Nat → Nat → Store → ResT Unit
  | [], _, _, st => .ok () st
  | (name, arg) :: rest, callerEnv, procEnv, st =>
    (recEval arg callerEnv st).andThen fun val st' =>
      define_args recEval rest callerEnv procEnv (envDefine st' procEnv name val)

/-- Scheme-closure application after the arity check: allocate the fresh
child of the captured environment, bind the arguments there, then evaluate
the body in a further fresh child of that scope. -/
def scheme_call (recEval : EvalFn) (pairs : List (String × Value)) (body : List Value)
    (func_env : Nat) (env : Nat) (st : Store) : Res :=
  let proc_env := st.length
  let st₁ := new_child st func_env
  (define_args recEval pairs env proc_env st₁).andThen fun _ st₂ =>
    evaluate_values recEval body st₂.length (new_child st₂ proc_env)

/-- Collect symbols from a parameter list, or return the first offending
non-symbol value (for the caller's error message). -/
def symbols_of : List Value → Value ⊕ List String
  | [] => .inr []
  | .Symbol s :: rest =>
    match symbols_of rest with
    | .inr ss => .inr (s :: ss)
    | .inl bad => .inl bad
  | bad :: _ => .inl bad

/-- `native_define`. -/
def native_define (recEval : EvalFn) (args : List Value) (env : Nat) (st : Store) : Res :=
  if args.length < 2 then
    .rtErr ("Must supply at least two arguments to define: " ++ slice_debug_fmt args)
  else
    match args with
    | .Symbol name :: value_expr :: _ =>
      (recEval value_expr env st).andThen fun val st' =>
        .ok Value.null (envDefine st' env name val)
    | .List list :: _ =>
      if list.length < 1 then
        .rtErr ("Must supply at least one argument in list part of define: " ++
          slice_debug_fmt list)
      else
        match list with
        | .Symbol name :: params =>
          match symbols_of params with
          | .inl bad => .rtErr ("Unexpected argument in define arguments: " ++ debug_fmt bad)
          | .inr arg_names =>
            .ok Value.null
              (envDefine st env name (.Procedure (.Scheme arg_names (args.drop 1) env)))
        | _ => .rtErr ("Must supply a symbol in list part of define: " ++ slice_debug_fmt list)
    | _ => .rtErr ("Unexpected value for name in define: " ++ slice_debug_fmt args)

/-- `native_define_syntax_rule`. -/
def native_define_syntax_rule (_recEval : EvalFn) (args : List Value) (env : Nat)
    (st : Store) : Res :=
  if args.length ≠ 2 then
    .rtErr ("Must supply exactly two arguments to define-syntax-rule: " ++ slice_debug_fmt args)
  else
    match args with
    | .List list :: _ =>
      if list.length < 1 then
        .rtErr ("Must supply at least one argument in list part of define-syntax-rule: " ++
          slice_debug_fmt list)
      else
        match list with
        | .Symbol name :: params =>
          match symbols_of params with
          | .inl bad =>
            .rtErr ("Unexpected argument in define-syntax-rule arguments: " ++ debug_fmt bad)
          | .inr arg_names =>
            .ok Value.null (envDefine st env name (.Macro arg_names (args.drop 1)))
        | _ => .rtErr ("Must supply a symbol in list part of define: " ++ slice_debug_fmt list)
    | _ => .rtErr ("Unexpected value for pattern in define-syntax-rule: " ++ slice_debug_fmt args)

/-- `native_begin`. -/
def native_begin (recEval : EvalFn) (args : List Value) (env : Nat) (st : Store) : Res :=
  if args.length < 1 then
    .rtErr ("Must supply at least one argument to begin: " ++ slice_debug_fmt args)
  else evaluate_values recEval args env st

/-- The binding loop of `native_let`: each entry must be a two-element
list headed by a symbol; its value expression is evaluated in the outer
environment and defined in the let scope.  The name-error message quotes
the original `args` (and mentions `set!`), exactly as the source does. -/
def let_bind_entries (recEval : EvalFn) (args : List Value) : List Value → Nat → Nat → Store →
    ResT Unit
  | [], _, _, st => .ok () st
  | .List entry :: rest, env, let_env, st =>
    if entry.length ≠ 2 then
      .rtErr ("let expression values must have exactly 2 params: " ++ slice_debug_fmt entry)
    else
      match entry with
      | [.Symbol name, expr] =>
        (recEval expr env st).andThen fun val st' =>
          let_bind_entries recEval args rest env let_env (envDefine st' let_env name val)
      | _ => .rtErr ("Unexpected value for name in set!: " ++ slice_debug_fmt args)
  | other :: _, _, _, _ =>
    .rtErr ("Unexpected value inside expression in let: " ++ debug_fmt other)

/-- `native_let`. -/
def native_let (recEval : EvalFn) (args : List Value) (env : Nat) (st : Store) : Res :=
  if args.length < 2 then
    .rtErr ("Must supply at least two arguments to let: " ++ slice_debug_fmt args)
  else
    let let_env := st.length
    let st₁ := new_child st env
    match args with
    | .List list :: _ =>
      (let_bind_entries recEval args list env let_env st₁).andThen fun _ st₂ =>
        evaluate_values recEval (args.drop 1) st₂.length (new_child st₂ let_env)
    | _ => .rtErr ("Unexpected value for expressions in let: " ++ slice_debug_fmt args)

/-- `native_set` (`set!`). -/
def native_set (recEval : EvalFn) (args : List Value) (env : Nat) (st : Store) : Res :=
  if args.length ≠ 2 then
    .rtErr ("Must supply exactly two arguments to set!: " ++ slice_debug_fmt args)
  else
    match args with
    | [.Symbol name, expr] =>
      (recEval expr env st).andThen fun val st' =>
        match envSet st'.length st' env name val with
        | some st'' => .ok Value.null st''
        | none => .rtErr ("Can't set! an undefined variable: " ++ rust_string_debug name)
    | _ => .rtErr ("Unexpected value for name in set!: " ++ slice_debug_fmt args)

/-- `native_lambda` (also bound to `λ`). -/
def native_lambda (_recEval : EvalFn) (args : List Value) (env : Nat) (st : Store) : Res :=
  if args.length < 2 then
    .rtErr ("Must supply at least two arguments to lambda: " ++ slice_debug_fmt args)
  else
    match args with
    | .List list :: _ =>
      match symbols_of list with
      | .inl bad => .rtErr ("Unexpected argument in lambda arguments: " ++ debug_fmt bad)
      | .inr arg_names => .ok (.Procedure (.Scheme arg_names (args.drop 1) env)) st
    | _ => .rtErr ("Unexpected value for arguments in lambda: " ++ slice_debug_fmt args)

/-- `native_if`: evaluate the condition once; only `Boolean false` selects
the third argument, every other value selects the second. -/
def native_if (recEval : EvalFn) (args : List Value) (env : Nat) (st : Store) : Res :=
  if args.length ≠ 3 then
    .rtErr ("Must supply exactly three arguments to if: " ++ slice_debug_fmt args)
  else
    match args with
    | [c, t, f] =>
      (recEval c env st).andThen fun condition st' =>
        match condition with
        | .Boolean false => recEval f env st'
        | _ => recEval t env st'
    | _ => .rtErr ("Must supply exactly three arguments to if: " ++ slice_debug_fmt args)

/-- The accumulation loop of `native_plus`; overflow aborts the host
(debug-profile `+=`). -/
def sum_args (recEval : EvalFn) : List Value → Int → Nat → Store → ResT Int
  | [], acc, _, st => .ok acc st
  | n :: rest, acc, env, st =>
    (recEval n env st).andThen fun v st' =>
      match v with
      | .Integer x =>
        if inI64 (acc + x) then sum_args recEval rest (acc + x) env st'
        else .panicked "attempt to add with overflow"
      | _ => .rtErr ("Unexpected value during +: " ++ debug_fmt n)

/-- `native_plus`. -/
def native_plus (recEval : EvalFn) (args : List Value) (env : Nat) (st : Store) : Res :=
  if args.length < 2 then
    .rtErr ("Must supply at least two arguments to +: " ++ slice_debug_fmt args)
  else
    (sum_args recEval args 0 env st).andThen fun sum st' => .ok (.Integer sum) st'

/-- `native_minus`: both operands are evaluated before either type check. -/
def native_minus (recEval : EvalFn) (args : List Value) (env : Nat) (st : Store) : Res :=
  if args.length ≠ 2 then
    .rtErr ("Must supply exactly two arguments to -: " ++ slice_debug_fmt args)
  else
    match args with
    | [a, b] =>
      (recEval a env st).andThen fun l st₁ =>
        (recEval b env st₁).andThen fun r st₂ =>
          match l with
          | .Integer x =>
            match r with
            | .Integer y =>
              if inI64 (x - y) then .ok (.Integer (x - y)) st₂
              else .panicked "attempt to subtract with overflow"
            | _ => .rtErr ("Unexpected value during -: " ++ slice_debug_fmt args)
          | _ => .rtErr ("Unexpected value during -: " ++ slice_debug_fmt args)
    | _ => .rtErr ("Must supply exactly two arguments to -: " ++ slice_debug_fmt args)

/-- The accumulation loop of `native_multiply`. -/
def product_args (recEval : EvalFn) : List Value → Int → Nat → Store → ResT Int
  | [], acc, _, st => .ok acc st
  | n :: rest, acc, env, st =>
    (recEval n env st).andThen fun v st' =>
      match v with
      | .Integer x =>
        if inI64 (acc * x) then product_args recEval rest (acc * x) env st'
        else .panicked "attempt to multiply with overflow"
      | _ => .rtErr ("Unexpected value during *: " ++ debug_fmt n)

/-- `native_multiply`. -/
def native_multiply (recEval : EvalFn) (args : List Value) (env : Nat) (st : Store) : Res :=
  if args.length < 2 then
    .rtErr ("Must supply at least two arguments to *: " ++ slice_debug_fmt args)
  else
    (product_args recEval args 1 env st).andThen fun product st' => .ok (.Integer product) st'

/-- `native_divide`: non-Integer operands are RuntimeErrors; a zero
divisor (or `i64::MIN / -1`) aborts the host, exactly as Rust's `/=`
does — it is not caught as a RuntimeError. -/
def native_divide (recEval : EvalFn) (args : List Value) (env : Nat) (st : Store) : Res :=
  if args.length ≠ 2 then
    .rtErr ("Must supply exactly two arguments to /: " ++ slice_debug_fmt args)
  else
    match args with
    | [a, b] =>
      (recEval a env st).andThen fun l st₁ =>
        (recEval b env st₁).andThen fun r st₂ =>
          match l with
          | .Integer x =>
            match r with
            | .Integer y =>
              if y = 0 then .panicked "attempt to divide by zero"
              else if x = i64Min ∧ y = -1 then .panicked "attempt to divide with overflow"
              else .ok (.Integer (Int.tdiv x y)) st₂
            | _ => .rtErr ("Unexpected value during /: " ++ slice_debug_fmt args)
          | _ => .rtErr ("Unexpected value during /: " ++ slice_debug_fmt args)
    | _ => .rtErr ("Must supply exactly two arguments to /: " ++ slice_debug_fmt args)

/-- `native_lessthan`. -/
def native_lessthan (recEval : EvalFn) (args : List Value) (env : Nat) (st : Store) : Res :=
  if args.length ≠ 2 then
    .rtErr ("Must supply exactly two arguments to <: " ++ slice_debug_fmt args)
  else
    match args with
    | [a, b] =>
      (recEval a env st).andThen fun l st₁ =>
        (recEval b env st₁).andThen fun r st₂ =>
          match l with
          | .Integer x =>
            match r with
            | .Integer y => .ok (.Boolean (decide (x < y))) st₂
            | _ => .rtErr ("Unexpected value during <: " ++ slice_debug_fmt args)
          | _ => .rtErr ("Unexpected value during <: " ++ slice_debug_fmt args)
    | _ => .rtErr ("Must supply exactly two arguments to <: " ++ slice_debug_fmt args)

/-- `native_greaterthan`. -/
def native_greaterthan (recEval : EvalFn) (args : List Value) (env : Nat) (st : Store) : Res :=
  if args.length ≠ 2 then
    .rtErr ("Must supply exactly two arguments to >: " ++ slice_debug_fmt args)
  else
    match args with
    | [a, b] =>
      (recEval a env st).andThen fun l st₁ =>
        (recEval b env st₁).andThen fun r st₂ =>
          match l with
          | .Integer x =>
            match r with
            | .Integer y => .ok (.Boolean (decide (x > y))) st₂
            | _ => .rtErr ("Unexpected value during >: " ++ slice_debug_fmt args)
          | _ => .rtErr ("Unexpected value during >: " ++ slice_debug_fmt args)
    | _ => .rtErr ("Must supply exactly two arguments to >: " ++ slice_debug_fmt args)

/-- `native_equal`. -/
def native_equal (recEval : EvalFn) (args : List Value) (env : Nat) (st : Store) : Res :=
  if args.length ≠ 2 then
    .rtErr ("Must supply exactly two arguments to =: " ++ slice_debug_fmt args)
  else
    match args with
    | [a, b] =>
      (recEval a env st).andThen fun l st₁ =>
        (recEval b env st₁).andThen fun r st₂ =>
          match l with
          | .Integer x =>
            match r with
            | .Integer y => .ok (.Boolean (decide (x = y))) st₂
            | _ => .rtErr ("Unexpected value during =: " ++ slice_debug_fmt args)
          | _ => .rtErr ("Unexpected value during =: " ++ slice_debug_fmt args)
    | _ => .rtErr ("Must supply exactly two arguments to =: " ++ slice_debug_fmt args)

/-- The loop of `native_and`: short-circuit on `Boolean false`, else keep
the latest value. -/
def and_loop (recEval : EvalFn) : List Value → Value → Nat → Store → Res
  | [], res, _, st => .ok res st
  | n :: rest, _, env, st =>
    (recEval n env st).andThen fun v st' =>
      match v with
      | .Boolean false => .ok (.Boolean false) st'
      | _ => and_loop recEval rest v env st'

/-- `native_and`. -/
def native_and (recEval : EvalFn) (args : List Value) (env : Nat) (st : Store) : Res :=
  and_loop recEval args (.Boolean true) env st

/-- The loop of `native_or`: return the first non-false value. -/
def or_loop (recEval : EvalFn) : List Value → Nat → Store → Res
  | [], _, st => .ok (.Boolean false) st
  | n :: rest, env, st =>
    (recEval n env st).andThen fun v st' =>
      match v with
      | .Boolean false => or_loop recEval rest env st'
      | _ => .ok v st'

/-- `native_or`. -/
def native_or (recEval : EvalFn) (args : List Value) (env : Nat) (st : Store) : Res :=
  or_loop recEval args env st

/-- `native_null` (`null?`). -/
def native_null (recEval : EvalFn) (args : List Value) (env : Nat) (st : Store) : Res :=
  if args.length ≠ 1 then
    .rtErr ("Must supply exactly one argument to null?: " ++ slice_debug_fmt args)
  else
    match args with
    | [a] =>
      (recEval a env st).andThen fun v st' =>
        match v with
        | .List l => .ok (.Boolean (decide (l.length = 0))) st'
        | _ => .ok (.Boolean false) st'
    | _ => .rtErr ("Must supply exactly one argument to null?: " ++ slice_debug_fmt args)

/-- The evaluation loop of `native_list`. -/
def eval_args (recEval : EvalFn) : List Value → Nat → Store → ResT (List Value)
  | [], _, st => .ok [] st
  | n :: rest, env, st =>
    (recEval n env st).andThen fun v st' =>
      (eval_args recEval rest env st').andThen fun vs st'' => .ok (v :: vs) st''

/-- `native_list`. -/
def native_list (recEval : EvalFn) (args : List Value) (env : Nat) (st : Store) : Res :=
  (eval_args recEval args env st).andThen fun elements st' => .ok (.List elements) st'

/-- `native_car`. -/
def native_car (recEval : EvalFn) (args : List Value) (env : Nat) (st : Store) : Res :=
  if args.length ≠ 1 then
    .rtErr ("Must supply exactly one argument to car: " ++ slice_debug_fmt args)
  else
    match args with
    | [a] =>
      (recEval a env st).andThen fun v st' =>
        match v with
        | .List (x :: _) => .ok x st'
        | .List [] => .rtErr "Can't run car on an empty list"
        | _ => .rtErr "Must supply a list to car"
    | _ => .rtErr ("Must supply exactly one argument to car: " ++ slice_debug_fmt args)

/-- `native_cdr`. -/
def native_cdr (recEval : EvalFn) (args : List Value) (env : Nat) (st : Store) : Res :=
  if args.length ≠ 1 then
    .rtErr ("Must supply exactly one argument to cdr: " ++ slice_debug_fmt args)
  else
    match args with
    | [a] =>
      (recEval a env st).andThen fun v st' =>
        match v with
        | .List (_ :: rest) => .ok (.List rest) st'
        | .List [] => .rtErr "Can't run cdr on an empty list"
        | _ => .rtErr "Must supply a list to cdr"
    | _ => .rtErr ("Must supply exactly one argument to cdr: " ++ slice_debug_fmt args)

/-- `native_cons`. -/
def native_cons (recEval : EvalFn) (args : List Value) (env : Nat) (st : Store) : Res :=
  if args.length ≠ 2 then
    .rtErr ("Must supply exactly two arguments to cons: " ++ slice_debug_fmt args)
  else
    match args with
    | [a, b] =>
      (recEval a env st).andThen fun first st₁ =>
        (recEval b env st₁).andThen fun second st₂ =>
          match second with
          | .List elements => .ok (.List (first :: elements)) st₂
          | _ => .rtErr ("Second argument to cons must be a list: " ++ debug_fmt second)
    | _ => .rtErr ("Must supply exactly two arguments to cons: " ++ slice_debug_fmt args)

/-- `native_append`. -/
def native_append (recEval : EvalFn) (args : List Value) (env : Nat) (st : Store) : Res :=
  if args.length ≠ 2 then
    .rtErr ("Must supply exactly two arguments to append: " ++ slice_debug_fmt args)
  else
    match args with
    | [a, b] =>
      (recEval a env st).andThen fun first st₁ =>
        (recEval b env st₁).andThen fun second st₂ =>
          match first with
          | .List first_vec =>
            match second with
            | .List second_vec => .ok (.List (first_vec ++ second_vec)) st₂
            | _ => .rtErr ("Second argument to append must be a list: " ++ debug_fmt second)
          | _ => .rtErr ("First argument to append must be a list: " ++ debug_fmt first)
    | _ => .rtErr ("Must supply exactly two arguments to append: " ++ slice_debug_fmt args)

/-- `native_quote`. -/
def native_quote (recEval : EvalFn) (args : List Value) (env : Nat) (st : Store) : Res :=
  if args.length ≠ 1 then
    .rtErr ("Must supply exactly one argument to quote: " ++ slice_debug_fmt args)
  else
    match args with
    | [a] => quote_value recEval a false env st
    | _ => .rtErr ("Must supply exactly one argument to quote: " ++ slice_debug_fmt args)

/-- `native_quasiquote`. -/
def native_quasiquote (recEval : EvalFn) (args : List Value) (env : Nat) (st : Store) : Res :=
  if args.length ≠ 1 then
    .rtErr ("Must supply exactly one argument to quasiquote: " ++ slice_debug_fmt args)
  else
    match args with
    | [a] => quote_value recEval a true env st
    | _ => .rtErr ("Must supply exactly one argument to quasiquote: " ++ slice_debug_fmt args)

/-- `native_error` ("exactly one arguments" is the source's own text). -/
def native_error (recEval : EvalFn) (args : List Value) (env : Nat) (st : Store) : Res :=
  if args.length ≠ 1 then
    .rtErr ("Must supply exactly one arguments to error: " ++ slice_debug_fmt args)
  else
    match args with
    | [a] => (recEval a env st).andThen fun e _ => .rtErr (debug_fmt e)
    | _ => .rtErr ("Must supply exactly one arguments to error: " ++ slice_debug_fmt args)

/-- `native_write`, `native_display`, `native_displayln`, `native_print`:
evaluate the argument (keeping its store effects) and return null; the
printed text is not modelled. -/
def native_output (name : String) (recEval : EvalFn) (args : List Value) (env : Nat)
    (st : Store) : Res :=
  if args.length ≠ 1 then
    .rtErr ("Must supply exactly one argument to " ++ name ++ ": " ++ slice_debug_fmt args)
  else
    match args with
    | [a] => (recEval a env st).andThen fun _ st' => .ok Value.null st'
    | _ => .rtErr ("Must supply exactly one argument to " ++ name ++ ": " ++ slice_debug_fmt args)

/-- `native_newline`. -/
def native_newline (_recEval : EvalFn) (args : List Value) (_env : Nat) (st : Store) : Res :=
  if args.length ≠ 0 then
    .rtErr ("Must supply exactly zero arguments to newline: " ++ slice_debug_fmt args)
  else .ok Value.null st

/-- `native_apply`: evaluate the first argument to a procedure and the
second to a list, then apply the procedure to the list's elements through
the ordinary `apply_function` path.  The source calls
`apply_function(&func, &func_args, env)` directly; since an evaluated
procedure value at the head of a list expression is applied by
`evaluate_value` in exactly the same way (lemma
`apply_function_via_eval`), the knot is tied here through the shared
evaluation entry point rather than a second fuel. -/
def native_apply (recEval : EvalFn) (args : List Value) (env : Nat) (st : Store) : Res :=
  if args.length ≠ 2 then
    .rtErr ("Must supply exactly two arguments to apply: " ++ slice_debug_fmt args)
  else
    match args with
    | [a, b] =>
      (recEval a env st).andThen fun fv st₁ =>
        match fv with
        | .Procedure func =>
          (recEval b env st₁).andThen fun lv st₂ =>
            match lv with
            | .List func_args =>
              recEval (.List (.Procedure func :: func_args)) env st₂
            | _ => .rtErr ("Second argument to apply must be a list of arguments: " ++
                slice_debug_fmt args)
        | _ => .rtErr ("First argument to apply must be a procedure: " ++ slice_debug_fmt args)
    | _ => .rtErr ("Must supply exactly two arguments to apply: " ++ slice_debug_fmt args)

/-- `native_eval`: double evaluation — first in the calling environment to
obtain a datum, then again resolved against the root environment. -/
def native_eval (recEval : EvalFn) (args : List Value) (env : Nat) (st : Store) : Res :=
  if args.length ≠ 1 then
    .rtErr ("Must supply exactly one argument to eval: " ++ slice_debug_fmt args)
  else
    match args with
    | [a] =>
      (recEval a env st).andThen fun res st' =>
        recEval res (get_root st'.length st' env) st'
    | _ => .rtErr ("Must supply exactly one argument to eval: " ++ slice_debug_fmt args)

/-- Dispatch a native procedure tag to its implementation. -/
def apply_native (recEval : EvalFn) (nf : NativeFn) (args : List Value) (env : Nat)
    (st : Store) : Res :=
  match nf with
  | .define => native_define recEval args env st
  | .defineSyntaxRule => native_define_syntax_rule recEval args env st
  | .begin => native_begin recEval args env st
  | .letN => native_let recEval args env st
  | .setBang => native_set recEval args env st
  | .lambda => native_lambda recEval args env st
  | .ifN => native_if recEval args env st
  | .plus => native_plus recEval args env st
  | .minus => native_minus recEval args env st
  | .multiply => native_multiply recEval args env st
  | .divide => native_divide recEval args env st
  | .lessthan => native_lessthan recEval args env st
  | .greaterthan => native_greaterthan recEval args env st
  | .equal => native_equal recEval args env st
  | .andN => native_and recEval args env st
  | .orN => native_or recEval args env st
  | .isNull => native_null recEval args env st
  | .listN => native_list recEval args env st
  | .car => native_car recEval args env st
  | .cdr => native_cdr recEval args env st
  | .cons => native_cons recEval args env st
  | .append => native_append recEval args env st
  | .quote => native_quote recEval args env st
  | .quasiquote => native_quasiquote recEval args env st
  | .error => native_error recEval args env st
  | .apply => native_apply recEval args env st
  | .eval => native_eval recEval args env st
  | .write => native_output "write" recEval args env st
  | .display => native_output "display" recEval args env st
  | .displayln => native_output "displayln" recEval args env st
  | .print => native_output "print" recEval args env st
  | .newline => native_newline recEval args env st

/-- `apply_function`: native procedures receive the unevaluated argument
expressions; Scheme closures check arity, then bind and run. -/
def apply_function (recEval : EvalFn) (func : Function) (args : List Value) (env : Nat)
    (st : Store) : Res :=
  match func with
  | .Native nf => apply_native recEval nf args env st
  | .Scheme arg_names body func_env =>
    if arg_names.length ≠ args.length then .rtErr (arity_error_msg arg_names args)
    else scheme_call recEval (arg_names.zip args) body func_env env st

/-- `evaluate_expression`: evaluate the head; a Procedure is applied to
the unevaluated remaining elements, a Macro is expanded then evaluated,
anything else is a type error. -/
def evaluate_expression (recEval : EvalFn) (values : List Value) (env : Nat) (st : Store) : Res :=
  match values with
  | [] => .rtErr ("Can't evaluate an empty expression: " ++ slice_debug_fmt values)
  | first :: rest =>
    (recEval first env st).andThen fun f st' =>
      match f with
      | .Procedure func => apply_function recEval func rest env st'
      | .Macro a b => expand_macro_apply recEval a b rest env st'
      | other => .rtErr ("First element in an expression must be a procedure: " ++
          debug_fmt other)

/-- One level of `evaluate_value`, parameterized by the evaluation entry
point used for every nested evaluation. -/
def evaluate_value_step (recEval : EvalFn) (value : Value) (env : Nat) (st : Store) : Res :=
  match value with
  | .Symbol _ =>
    match envGet st.length st env (match value with | .Symbol s => s | _ => "") with
    | some val => .ok val st
    | none => .rtErr ("Identifier not found: " ++ debug_fmt value)
  | .Integer n => .ok (.Integer n) st
  | .Boolean b => .ok (.Boolean b) st
  | .String s => .ok (.String s) st
  | .List vec =>
    if vec.length > 0 then evaluate_expression recEval vec env st
    else .ok Value.null st
  | .Procedure f => .ok (.Procedure f) st
  | .Macro a b => .ok (.Macro a b) st
  | .CustomType t i => .ok (.CustomType t i) st

/-- The tree-walking `evaluate_value`, fuel-indexed: fuel bounds the
nesting depth of evaluator self-calls. -/
def evaluate_value : Nat → Value → Nat → Store → Res
  | 0, _, _, _ => .fuelOut
  | fuel+1, v, env, st => evaluate_value_step (evaluate_value fuel) v env st

/-- The `predefined_functions` table of `Environment::new_root`, in source
order (`λ` is a second binding of the lambda native). -/
def predefined_functions : List (String × Value) :=
  [("define", .Procedure (.Native .define)),
   ("define-syntax-rule", .Procedure (.Native .defineSyntaxRule)),
   ("begin", .Procedure (.Native .begin)),
   ("let", .Procedure (.Native .letN)),
   ("set!", .Procedure (.Native .setBang)),
   ("lambda", .Procedure (.Native .lambda)),
   ("λ", .Procedure (.Native .lambda)),
   ("if", .Procedure (.Native .ifN)),
   ("+", .Procedure (.Native .plus)),
   ("-", .Procedure (.Native .minus)),
   ("*", .Procedure (.Native .multiply)),
   ("/", .Procedure (.Native .divide)),
   ("<", .Procedure (.Native .lessthan)),
   (">", .Procedure (.Native .greaterthan)),
   ("=", .Procedure (.Native .equal)),
   ("and", .Procedure (.Native .andN)),
   ("or", .Procedure (.Native .orN)),
   ("null?", .Procedure (.Native .isNull)),
   ("list", .Procedure (.Native .listN)),
   ("car", .Procedure (.Native .car)),
   ("cdr", .Procedure (.Native .cdr)),
   ("cons", .Procedure (.Native .cons)),
   ("append", .Procedure (.Native .append)),
   ("quote", .Procedure (.Native .quote)),
   ("quasiquote", .Procedure (.Native .quasiquote)),
   ("error", .Procedure (.Native .error)),
   ("apply", .Procedure (.Native .apply)),
   ("eval", .Procedure (.Native .eval)),
   ("write", .Procedure (.Native .write)),
   ("display", .Procedure (.Native .display)),
   ("displayln", .Procedure (.Native .displayln)),
   ("print", .Procedure (.Native .print)),
   ("newline", .Procedure (.Native .newline))]

/-- `Environment::new_root`: the single root node, pre-populated by
`define`-ing every predefined function in order. -/
def initialStore : Store :=
  [{ parent := none,
     vars := predefined_functions.foldl (fun m kv => mapInsert m kv.1 kv.2) [] }]

/-- `Interpreter::run` / top-level `evaluate_values` over the root
environment of a fresh interpreter. -/
def run_program (fuel : Nat) (values : List Value) : Res :=
  evaluate_values (evaluate_value fuel) values 0 initialStore

/-- The success value of a result, if any. -/
def ResT.value {α : Type} : ResT α → Option α
  | .ok v _ => some v
  | _ => none

/-- The RuntimeError message of a result, if any. -/
def ResT.errorMessage {α : Type} : ResT α → Option String
  | .rtErr m => some m
  | _ => none

/-- Whether a result is a RuntimeError. -/
def ResT.isRuntimeError {α : Type} : ResT α → Bool
  | .rtErr _ => true
  | _ => false

/-- Whether a value carries the `Integer` variant. -/
def is_integer : Value → Bool
  | .Integer _ => true
  | _ => false

/-- Spec rendering of sequence evaluation (§4.2): forms run left to right
and the value of the last expression is the result (null for an empty
sequence). -/
def body_sequence_spec (recEval : EvalFn) : List Value → Nat → Store → Res
  | [], _, st => .ok Value.null st
  | [last], env, st => recEval last env st
  | e :: rest, env, st =>
    (recEval e env st).andThen fun _ st' => body_sequence_spec recEval rest env st'

/-- Spec rendering of the closure argument pass (§4.2): parameter names
and argument expressions are paired positionally; each argument is
evaluated once, left to right, in the caller's environment, and its value
is defined in the call's fresh scope.  The final clause is unreachable,
since the caller has already checked the arity. -/
def closure_bind_spec (recEval : EvalFn) : List String → List Value → Nat → Nat → Store →
    ResT Unit
  | [], [], _, _, st => .ok () st
  | name :: names, arg :: args, caller_env, scope, st =>
    (recEval arg caller_env st).andThen fun val st' =>
      closure_bind_spec recEval names args caller_env scope (envDefine st' scope name val)
  | names, args, _, _, _ => .rtErr (arity_error_msg names args)

/-- Spec rendering of closure application (§4.2): exact arity check, a
fresh child scope of the closure's captured environment holding the
argument bindings, and the body evaluated sequentially in a further fresh
child of that scope. -/
def closure_application_spec (recEval : EvalFn) (params : List String) (body : List Value)
    (captured : Nat) (caller_env : Nat) (args : List Value) (st : Store) : Res :=
  if params.length = args.length then
    let scope := st.length
    (closure_bind_spec recEval params args caller_env scope (new_child st captured)).andThen
      fun _ st' => body_sequence_spec recEval body st'.length (new_child st' scope)
  else .rtErr (arity_error_msg params args)

/-- Spec rendering of `if` (§4.2 / `native_if`): the condition is
evaluated once; `Boolean false` selects the third expression and every
other value the second, the unselected expression never being touched. -/
def if_spec (recEval : EvalFn) (c t f : Value) (env : Nat) (st : Store) : Res :=
  (recEval c env st).andThen fun condition st' =>
    match condition with
    | .Boolean false => recEval f env st'
    | _ => recEval t env st'

/-- Spec rendering of `eval` (§4.2): evaluate the argument once in the
calling environment, then evaluate the resulting datum against the root
environment reached by walking the parent chain to its end. -/
def eval_spec (recEval : EvalFn) (x : Value) (env : Nat) (st : Store) : Res :=
  (recEval x env st).andThen fun datum st' =>
    recEval datum (get_root st'.length st' env) st'

/-- Spec rendering of `apply`, amended: the first argument must evaluate
to a procedure and the second to a list, and the procedure is then applied
to the list's elements through the ordinary application path
(`recApply`) — for a closure that path evaluates each element again. -/
def apply_spec (recEval : EvalFn) (recApply : Function → List Value → Nat → Store → Res)
    (a b : Value) (env : Nat) (st : Store) : Res :=
  (recEval a env st).andThen fun fv st₁ =>
    match fv with
    | .Procedure func =>
      (recEval b env st₁).andThen fun lv st₂ =>
        match lv with
        | .List elements => recApply func elements env st₂
        | _ => .rtErr ("Second argument to apply must be a list of arguments: " ++
            slice_debug_fmt [a, b])
    | _ => .rtErr ("First argument to apply must be a procedure: " ++ slice_debug_fmt [a, b])

mutual
/-- Spec rendering of quasiquote, amended: the value is structurally
copied except that every `(unquote X)` form anywhere in the structure —
inside a nested `quote` form included, which gets no special treatment —
is replaced by evaluating `X` in the current environment; an `unquote`
form with other than exactly one argument is a RuntimeError. -/
def quasiquote_spec (recEval : EvalFn) : Value → Nat → Store → Res
  | .List vs, env, st =>
    if unquote_form vs then unquote_arm recEval vs env st
    else
      (quasiquote_spec_list recEval vs env st).andThen fun vs' st' => .ok (.List vs') st'
  | v, _, st => .ok v st

/-- Elementwise `quasiquote_spec`, left to right. -/
def quasiquote_spec_list (recEval : EvalFn) : List Value → Nat → Store → ResT (List Value)
  | [], _, st => .ok [] st
  | v :: rest, env, st =>
    (quasiquote_spec recEval v env st).andThen fun v' st' =>
      (quasiquote_spec_list recEval rest env st').andThen fun rest' st'' =>
        .ok (v' :: rest') st''
end

/-- Spec rendering of the `set!` walk: the nearest node, walking upward
from `i`, that already defines the key. -/
def nearest_binding_node : Nat → Store → Nat → String → Option Nat
  | 0, _, _, _ => none
  | fuel+1, st, i, k =>
    match st[i]? with
    | none => none
    | some node =>
      if (mapGet node.vars k).isSome then some i
      else
        match node.parent with
        | some p => nearest_binding_node fuel st p k
        | none => none

/-- The indices of the chain of environment nodes reachable from `i` by
walking parent links. -/
def env_chain : Nat → Store → Nat → List Nat
  | 0, _, _ => []
  | fuel+1, st, i =>
    match st[i]? with
    | none => []
    | some node =>
      i :: (match node.parent with
            | some p => env_chain fuel st p
            | none => [])

/-- Modelled from the spec: the continuation-passing evaluator
(`cps_interpreter.rs`, referenced by `lib.rs`/`main.rs`) is not under
`src/`; §4.4 requires control state as data — a closed set of
continuation frames — driven by an iterative trampoline.  The frame
vocabulary is an implementation freedom (§9); this model trampolines
procedure application: evaluate the head (`applyCont`), evaluate and bind
each closure argument (`bindCont`), and run body/program sequences
(`seqCont`), with the last body expression reusing the caller's
continuation (the §4.4 tail-call requirement).  Native procedures receive
the unevaluated arguments and evaluate what they need through the shared
evaluation entry point, per the §6 host-extension contract. -/
inductive Frame where
  | applyCont (rest : List Value) (env : Nat)
  | seqCont (rest : List Value) (env : Nat)
  | bindCont (name : String) (pending : List (String × Value)) (proc_env : Nat)
      (body : List Value) (caller_env : Nat)

/-- The trampoline's current work item: an expression to evaluate in an
environment, or a value being returned to the continuation. -/
inductive Ctrl where
  | exprC (v : Value) (env : Nat)
  | valC (v : Value)

/-- One machine configuration: work item, store, continuation stack. -/
structure MState where
  ctrl : Ctrl
  store : Store
  stack : List Frame

/-- A step's result: another configuration, or the loop's final outcome
(errors abort the loop immediately, per §4.4). -/
inductive MOut where
  | running (s : MState)
  | halted (r : Res)

/-- Enter a sequence of forms: empty yields null, and the final form runs
with the caller's own continuation (tail position). -/
def seq_start (l : List Value) (env : Nat) (st : Store) (k : List Frame) : MState :=
  match l with
  | [] => ⟨.valC Value.null, st, k⟩
  | [e] => ⟨.exprC e env, st, k⟩
  | e :: rest => ⟨.exprC e env, st, .seqCont rest env :: k⟩

/-- Enter a closure call whose arity was already checked: allocate the
fresh scope under the captured environment, then either bind no arguments
and start the body in a further fresh child, or evaluate the first
argument in the caller's environment. -/
def closure_enter (pairs : List (String × Value)) (body : List Value) (func_env : Nat)
    (caller_env : Nat) (st : Store) (k : List Frame) : MState :=
  let proc_env := st.length
  let st₁ := new_child st func_env
  match pairs with
  | [] => seq_start body st₁.length (new_child st₁ proc_env) k
  | (name, arg) :: rest =>
    ⟨.exprC arg caller_env, st₁, .bindCont name rest proc_env body caller_env :: k⟩

/-- Bind one evaluated argument value, then evaluate the next argument or
start the body. -/
def bind_fire (v : Value) (name : String) (pending : List (String × Value)) (proc_env : Nat)
    (body : List Value) (caller_env : Nat) (st : Store) (k : List Frame) : MState :=
  let st' := envDefine st proc_env name v
  match pending with
  | [] => seq_start body st'.length (new_child st' proc_env) k
  | (n, a) :: rest => ⟨.exprC a caller_env, st', .bindCont n rest proc_env body caller_env :: k⟩

/-- One trampoline step.  `F` is the fuel handed to the shared evaluation
entry point when a native procedure runs. -/
def machine_step (F : Nat) (s : MState) : MOut :=
  match s with
  | ⟨.exprC v env, st, k⟩ =>
    match v with
    | .Symbol _ =>
      match envGet st.length st env (match v with | .Symbol x => x | _ => "") with
      | some val => .running ⟨.valC val, st, k⟩
      | none => .halted (.rtErr ("Identifier not found: " ++ debug_fmt v))
    | .Integer n => .running ⟨.valC (.Integer n), st, k⟩
    | .Boolean b => .running ⟨.valC (.Boolean b), st, k⟩
    | .String s => .running ⟨.valC (.String s), st, k⟩
    | .List vec =>
      match vec with
      | [] => .running ⟨.valC Value.null, st, k⟩
      | first :: rest => .running ⟨.exprC first env, st, .applyCont rest env :: k⟩
    | .Procedure f => .running ⟨.valC (.Procedure f), st, k⟩
    | .Macro a b => .running ⟨.valC (.Macro a b), st, k⟩
    | .CustomType t i => .running ⟨.valC (.CustomType t i), st, k⟩
  | ⟨.valC v, st, []⟩ => .halted (.ok v st)
  | ⟨.valC _, st, .seqCont l env :: k⟩ => .running (seq_start l env st k)
  | ⟨.valC v, st, .bindCont name pending proc_env body caller_env :: k⟩ =>
    .running (bind_fire v name pending proc_env body caller_env st k)
  | ⟨.valC v, st, .applyCont rest env :: k⟩ =>
    match v with
    | .Procedure (.Native nf) =>
      match apply_native (evaluate_value F) nf rest env st with
      | .ok x st' => .running ⟨.valC x, st', k⟩
      | .rtErr m => .halted (.rtErr m)
      | .panicked m => .halted (.panicked m)
      | .fuelOut => .halted .fuelOut
    | .Procedure (.Scheme names body cenv) =>
      if names.length ≠ rest.length then .halted (.rtErr (arity_error_msg names rest))
      else .running (closure_enter (names.zip rest) body cenv env st k)
    | .Macro names mbody =>
      .running (seq_start
        (expand_macro_substitute_values (make_substitutions (names.zip rest)) mbody) env st k)
    | other => .halted (.rtErr ("First element in an expression must be a procedure: " ++
        debug_fmt other))

/-- Iterate the trampoline for at most `n` steps. -/
def machine_steps (F : Nat) : Nat → MState → MOut
  | 0, s => .running s
  | n+1, s =>
    match machine_step F s with
    | .running s' => machine_steps F n s'
    | .halted r => .halted r

/-- The trampoline's outcome within a step budget (`fuelOut` when the
budget is exhausted before the loop terminates). -/
def machine_run (F n : Nat) (s : MState) : Res :=
  match machine_steps F n s with
  | .halted r => r
  | .running _ => .fuelOut

/-- Execute a program on the continuation-passing evaluator: run the
top-level forms from the root environment of a fresh interpreter. -/
def machine_execute (F n : Nat) (values : List Value) : Res :=
  machine_run F n (seq_start values 0 initialStore [])

/-- A one-node store (a bare root with no bindings), used to instantiate
environment-chain facts at a concrete chain. -/
def single_node_store : Store := [{ parent := none, vars := [] }]

/-- A two-node store: a root binding `x` and an empty child scope, used
to instantiate the `set!` walk at a concrete chain. -/
def two_node_store : Store :=
  [{ parent := none, vars := [("x", .Integer 1)] }, { parent := some 0, vars := [] }]

/-- Whether a value carries the `Procedure` variant. -/
def is_procedure : Value → Bool
  | .Procedure _ => true
  | _ => false

/-- Whether a value carries the `List` variant. -/
def is_list : Value → Bool
  | .List _ => true
  | _ => false

/-- Result refinement: if the first run did not exhaust its fuel, the
second produces the identical result.  Used to state that the evaluator is
monotone in fuel. -/
def ResLe {α : Type} (a b : ResT α) : Prop := a ≠ .fuelOut → b = a

/-- Pointwise refinement of evaluation entry points. -/
def Refines (f g : EvalFn) : Prop := ∀ v env st, ResLe (f v env st) (g v env st)

/-- The trampoline realises a tree-walk result: an `ok` result is a
reachable `valC` configuration over the same continuation, an error halts
the loop with the identical outcome, and an out-of-fuel tree result
promises nothing. -/
def MACHINE_MATCHES (F : Nat) (r : Res) (s : MState) (k : List Frame) : Prop :=
  match r with
  | .ok x st' => ∃ n, machine_steps F n s = .running ⟨.valC x, st', k⟩
  | .rtErr m => ∃ n, machine_steps F n s = .halted (.rtErr m)
  | .panicked m => ∃ n, machine_steps F n s = .halted (.panicked m)
  | .fuelOut => True

/-- An evaluation entry point is simulated by the trampoline when every
evaluation it performs is realised from the corresponding `exprC`
configuration, whatever the pending continuation. -/
def SimOf (F : Nat) (f : EvalFn) : Prop :=
  ∀ v env st k, MACHINE_MATCHES F (f v env st) ⟨.exprC v env, st, k⟩ k

/-- A small demonstration program: define an increment closure, then call
it (covers define, lambda, closure application and native arithmetic). -/
def demoProgram : List Value :=
  [.List [.Symbol "define", .Symbol "inc",
     .List [.Symbol "lambda", .List [.Symbol "x"],
       .List [.Symbol "+", .Symbol "x", .Integer 1]]],
   .List [.Symbol "inc", .Integer 41]]

/-! ## Theorems -/

theorem ResT.andThen_assoc {α β γ : Type} (r : ResT α) (f : α → Store → ResT β)
    (g : β → Store → ResT γ) :
    (r.andThen f).andThen g = r.andThen fun v st => (f v st).andThen g := by
  cases r <;> rfl

theorem ResT.andThen_congr {α β : Type} (r : ResT α) {f g : α → Store → ResT β}
    (h : ∀ v st, f v st = g v st) : r.andThen f = r.andThen g := by
  cases r with
  | ok v st => exact h v st
  | rtErr m => rfl
  | panicked m => rfl
  | fuelOut => rfl

theorem ResT.andThen_ok_right {α : Type} (r : ResT α) :
    (r.andThen fun v st => .ok v st) = r := by
  cases r <;> rfl

theorem ResT.ok_ne_fuelOut {α : Type} {v : α} {st : Store} : (ResT.ok v st) ≠ .fuelOut := by
  intro h
  exact ResT.noConfusion h

/-- Whether a result is the out-of-fuel artifact. -/
def ResT.isFuelOut {α : Type} : ResT α → Bool
  | .fuelOut => true
  | _ => false

theorem ResT.ne_fuelOut_of_isFuelOut_false {α : Type} {r : ResT α}
    (h : r.isFuelOut = false) : r ≠ .fuelOut := by
  cases r <;> simp_all [ResT.isFuelOut]

theorem evaluate_values_loop_acc (recEval : EvalFn) :
    ∀ (l : List Value) (acc : Value) (env : Nat) (st : Store), l ≠ [] →
    evaluate_values_loop recEval l acc env st = evaluate_values recEval l env st := by
  intro l
  induction l with
  | nil => intro acc env st h; exact absurd rfl h
  | cons v rest ih =>
    intro acc env st _
    cases rest with
    | nil => rfl
    | cons w ws =>
      show (recEval v env st).andThen _ = (recEval v env st).andThen _
      refine ResT.andThen_congr _ fun r st' => ?_
      exact (ih r env st' (by simp)).trans (ih Value.null env st' (by simp)).symm

theorem evaluate_values_eq_body_seq (recEval : EvalFn) :
    ∀ (l : List Value) (env : Nat) (st : Store),
    evaluate_values recEval l env st = body_sequence_spec recEval l env st := by
  intro l
  induction l with
  | nil => intro env st; rfl
  | cons v rest ih =>
    intro env st
    cases rest with
    | nil =>
      show (recEval v env st).andThen _ = recEval v env st
      exact ResT.andThen_ok_right _
    | cons w ws =>
      show (recEval v env st).andThen _ = (recEval v env st).andThen _
      refine ResT.andThen_congr _ fun r st' => ?_
      exact (evaluate_values_loop_acc recEval (w :: ws) r env st' (by simp)).trans (ih env st')

theorem evaluate_values_append (recEval : EvalFn) :
    ∀ (vs : List Value) (v : Value) (env : Nat) (st : Store),
    evaluate_values recEval (vs ++ [v]) env st =
      (evaluate_values recEval vs env st).andThen fun _ st' => recEval v env st' := by
  have loop : ∀ (vs : List Value) (v : Value) (acc : Value) (env : Nat) (st : Store),
      evaluate_values_loop recEval (vs ++ [v]) acc env st =
        (evaluate_values_loop recEval vs acc env st).andThen fun _ st' => recEval v env st' := by
    intro vs v
    induction vs with
    | nil =>
      intro acc env st
      show (recEval v env st).andThen (fun r st' => .ok r st') = recEval v env st
      exact ResT.andThen_ok_right _
    | cons a as ih =>
      intro acc env st
      show (recEval a env st).andThen _ = ((recEval a env st).andThen _).andThen _
      rw [ResT.andThen_assoc]
      exact ResT.andThen_congr _ fun r st' => ih r env st'
  intro vs v env st
  exact loop vs v Value.null env st

/-- C10: evaluating zero forms succeeds with the null (empty-List) value —
both for `evaluate_values` in any environment and for a whole program from
a fresh interpreter — and in general a sequence of forms starts from the
null default and returns the value of its last form, every earlier form's
value being discarded after evaluation. -/
theorem evaluate_values_default_null_returns_last :
    (∀ (recEval : EvalFn) (env : Nat) (st : Store),
        evaluate_values recEval [] env st = .ok Value.null st) ∧
    (∀ fuel : Nat, run_program fuel [] = .ok Value.null initialStore) ∧
    (∀ (recEval : EvalFn) (vs : List Value) (v : Value) (env : Nat) (st : Store),
        evaluate_values recEval (vs ++ [v]) env st =
          (evaluate_values recEval vs env st).andThen fun _ st' => recEval v env st') := by
  refine ⟨fun recEval env st => rfl, fun fuel => rfl, evaluate_values_append⟩

/-- C8: applying `if` to exactly three argument expressions evaluates the
condition once (the single `recEval` call of `if_spec`); a `Boolean false`
condition selects the third expression and every other condition value —
Integer 0, the empty String and the empty List included — selects the
second; the unselected expression is never evaluated, as the two
error-carrying demonstration programs show. -/
theorem native_if_condition_selection :
    (∀ (recEval : EvalFn) (c t f : Value) (env : Nat) (st : Store),
        apply_native recEval .ifN [c, t, f] env st = if_spec recEval c t f env st) ∧
    (∀ (recEval : EvalFn) (c t f : Value) (env : Nat) (st st' : Store),
        recEval c env st = .ok (.Boolean false) st' →
        apply_native recEval .ifN [c, t, f] env st = recEval f env st') ∧
    (∀ (recEval : EvalFn) (c t f : Value) (env : Nat) (st : Store) (v : Value) (st' : Store),
        recEval c env st = .ok v st' → v ≠ .Boolean false →
        apply_native recEval .ifN [c, t, f] env st = recEval t env st') ∧
    ((run_program 9 [.List [.Symbol "if", .Integer 0, .Integer 1, .Integer 2]]).value =
        some (.Integer 1)) ∧
    ((run_program 9 [.List [.Symbol "if", .String "", .Integer 1, .Integer 2]]).value =
        some (.Integer 1)) ∧
    ((run_program 9 [.List [.Symbol "if", .List [], .Integer 1, .Integer 2]]).value =
        some (.Integer 1)) ∧
    ((run_program 9 [.List [.Symbol "if", .Boolean false, .Integer 1, .Integer 2]]).value =
        some (.Integer 2)) ∧
    ((run_program 9 [.List [.Symbol "if", .Boolean true, .Integer 1,
        .List [.Symbol "error", .String "bad"]]]).value = some (.Integer 1)) ∧
    ((run_program 9 [.List [.Symbol "if", .Boolean false,
        .List [.Symbol "error", .String "bad"], .Integer 2]]).value = some (.Integer 2)) := by
  have hspec : ∀ (recEval : EvalFn) (c t f : Value) (env : Nat) (st : Store),
      apply_native recEval .ifN [c, t, f] env st = if_spec recEval c t f env st :=
    fun recEval c t f env st => rfl
  refine ⟨hspec, ?_, ?_, rfl, rfl, rfl, rfl, rfl, rfl⟩
  · intro recEval c t f env st st' hc
    rw [hspec, if_spec, hc]
    rfl
  · intro recEval c t f env st v st' hc hv
    rw [hspec, if_spec, hc]
    cases v with
    | Boolean b =>
      cases b with
      | false => exact absurd rfl hv
      | true => rfl
    | Symbol s => rfl
    | Integer n => rfl
    | String s => rfl
    | List l => rfl
    | Procedure p => rfl
    | Macro a b => rfl
    | CustomType a b => rfl

/-- Witness for `native_if_condition_selection`: the false and non-false
branches applied at concrete inputs. -/
theorem native_if_condition_selection_witness :
    (apply_native (evaluate_value 5) .ifN [.Boolean false, .Integer 1, .Integer 2] 0 initialStore =
      evaluate_value 5 (.Integer 2) 0 initialStore) ∧
    (apply_native (evaluate_value 5) .ifN [.Integer 0, .Integer 1, .Integer 2] 0 initialStore =
      evaluate_value 5 (.Integer 1) 0 initialStore) :=
  ⟨native_if_condition_selection.2.1 (evaluate_value 5) (.Boolean false) (.Integer 1) (.Integer 2)
      0 initialStore initialStore (by rfl),
   native_if_condition_selection.2.2.1 (evaluate_value 5) (.Integer 0) (.Integer 1) (.Integer 2)
      0 initialStore (.Integer 0) initialStore (by rfl) (by intro h; exact Value.noConfusion h)⟩

theorem define_args_eq_bind_spec (recEval : EvalFn) :
    ∀ (params : List String) (args : List Value) (caller scope : Nat) (st : Store),
    params.length = args.length →
    define_args recEval (params.zip args) caller scope st =
      closure_bind_spec recEval params args caller scope st := by
  intro params
  induction params with
  | nil =>
    intro args caller scope st h
    cases args with
    | nil => rfl
    | cons a as => exact absurd h (by simp)
  | cons p ps ih =>
    intro args caller scope st h
    cases args with
    | nil => exact absurd h (by simp)
    | cons a as =>
      show (recEval a caller st).andThen _ = (recEval a caller st).andThen _
      refine ResT.andThen_congr _ fun val st' => ?_
      exact ih as caller scope (envDefine st' scope p val) (by simpa using h)

/-- C2: applying a Scheme closure is exactly the spec composition: a
mismatched argument count is the arity RuntimeError, and otherwise each
argument expression is evaluated once, left to right, in the caller's
environment, bound positionally as a definition in one fresh child scope
of the closure's captured environment, and the body runs sequentially in
a further fresh child of that scope, its last expression's value being
the call's result.  The demonstration programs show the arity error, a
call, parameter shadowing, and a body-level `define` landing in the
nested scope instead of clobbering the parameter slot. -/
theorem closure_application_matches_spec :
    (∀ (recEval : EvalFn) (params : List String) (body : List Value) (captured env : Nat)
        (args : List Value) (st : Store),
        apply_function recEval (.Scheme params body captured) args env st =
          closure_application_spec recEval params body captured env args st) ∧
    (run_program 9 [.List [.List [.Symbol "lambda", .List [.Symbol "x"], .Symbol "x"],
        .Integer 1, .Integer 2]] =
      .rtErr "Must supply exactly 1 arguments to function: [1, 2]") ∧
    ((run_program 9 [.List [.List [.Symbol "lambda", .List [.Symbol "x", .Symbol "y"],
        .List [.Symbol "+", .Symbol "x", .Symbol "y"]], .Integer 2, .Integer 3]]).value =
      some (.Integer 5)) ∧
    ((run_program 9 [
        .List [.Symbol "define", .Symbol "x", .Integer 2],
        .List [.List [.Symbol "lambda", .List [.Symbol "x"], .Symbol "x"], .Integer 3]]).value =
      some (.Integer 3)) ∧
    ((run_program 9 [
        .List [.Symbol "define", .Symbol "x", .Integer 2],
        .List [.List [.Symbol "lambda", .List [.Symbol "x"],
          .List [.Symbol "define", .Symbol "x", .Integer 4], .Symbol "x"], .Integer 3]]).value =
      some (.Integer 4)) := by
  refine ⟨?_, rfl, rfl, rfl, rfl⟩
  intro recEval params body captured env args st
  show (if params.length ≠ args.length then _ else _) = closure_application_spec _ _ _ _ _ _ _
  rw [closure_application_spec]
  by_cases h : params.length = args.length
  · rw [if_neg (by simpa using h), if_pos h, scheme_call,
      define_args_eq_bind_spec recEval params args env st.length (new_child st captured) h]
    refine ResT.andThen_congr _ fun u st₂ => ?_
    exact evaluate_values_eq_body_seq recEval body st₂.length (new_child st₂ st.length)
  · rw [if_pos (by simpa using h), if_neg h]

theorem get_root_parent_none :
    ∀ (fuel : Nat) (st : Store) (i : Nat), StoreWF st → i < st.length → i < fuel →
    ∃ node, st[get_root fuel st i]? = some node ∧ node.parent = none := by
  intro fuel
  induction fuel with
  | zero => intro st i _ _ h; omega
  | succ n ih =>
    intro st i hwf hil hif
    cases hnode : st[i]? with
    | none =>
      have := List.getElem?_eq_none_iff.mp hnode
      omega
    | some node =>
      cases hp : node.parent with
      | none =>
        refine ⟨node, ?_, hp⟩
        have heq : get_root (n+1) st i = i := by
          simp only [get_root, hnode, hp]
        rw [heq, hnode]
      | some p =>
        have hpi : p < i := hwf i node hnode p hp
        have heq : get_root (n+1) st i = get_root n st p := by
          simp only [get_root, hnode, hp]
        rw [heq]
        exact ih st p hwf (by omega) (by omega)

/-- C3: `(eval E)` evaluates `E` once in the calling environment to obtain
a datum and then evaluates that datum a second time against
`get_root` — which, on a well-formed store, lands on the parentless end of
the chain, the root — rather than the calling environment.  An unbound
symbol evaluates to the unbound-variable RuntimeError, and the
demonstration programs show a caller-local binding failing under `eval`
even though it is in lexical scope at the call site, while a root-level
binding stays visible. -/
theorem native_eval_double_evaluation :
    (∀ (recEval : EvalFn) (x : Value) (env : Nat) (st : Store),
        apply_native recEval .eval [x] env st = eval_spec recEval x env st) ∧
    (∀ (st : Store) (i : Nat), StoreWF st → i < st.length →
        ∃ node, st[get_root st.length st i]? = some node ∧ node.parent = none) ∧
    (∀ (fuel : Nat) (s : String) (env : Nat) (st : Store),
        envGet st.length st env s = none →
        evaluate_value (fuel+1) (.Symbol s) env st =
          .rtErr ("Identifier not found: " ++ debug_fmt (.Symbol s))) ∧
    (run_program 20 [
        .List [.Symbol "define", .Symbol "bad-eval-formula",
          .List [.Symbol "lambda", .List [.Symbol "formula"],
            .List [.List [.Symbol "lambda", .List [.Symbol "x", .Symbol "y"],
              .List [.Symbol "eval", .Symbol "formula"]], .Integer 2, .Integer 3]]],
        .List [.Symbol "bad-eval-formula", .List [.Symbol "quote",
          .List [.Symbol "+", .Symbol "x", .Symbol "y"]]]] =
      .rtErr "Identifier not found: x") ∧
    ((run_program 20 [
        .List [.Symbol "define", .Symbol "w", .Integer 7],
        .List [.List [.Symbol "lambda", .List [.Symbol "q"],
          .List [.Symbol "eval", .List [.Symbol "quote", .Symbol "w"]]], .Integer 1]]).value =
      some (.Integer 7)) := by
  refine ⟨fun recEval x env st => rfl, ?_, ?_, rfl, rfl⟩
  · intro st i hwf hi
    exact get_root_parent_none st.length st i hwf hi hi
  · intro fuel s env st h
    show evaluate_value_step (evaluate_value fuel) (.Symbol s) env st = _
    rw [evaluate_value_step]
    rw [h]

/-- Witness for `native_eval_double_evaluation`: the chain-end property on
a one-node store, and the unbound-variable error at a concrete symbol. -/
theorem native_eval_double_evaluation_witness :
    (∃ node, single_node_store[get_root single_node_store.length single_node_store 0]? =
        some node ∧ node.parent = none) ∧
    (evaluate_value 1 (.Symbol "zz") 0 single_node_store =
      .rtErr ("Identifier not found: " ++ debug_fmt (.Symbol "zz"))) :=
  ⟨native_eval_double_evaluation.2.1 single_node_store 0
      (by
        intro j node hj p hp
        cases j with
        | zero =>
          injection hj with h
          rw [← h] at hp
          exact Option.noConfusion hp
        | succ j => exact Option.noConfusion hj)
      (by decide),
   native_eval_double_evaluation.2.2.1 0 "zz" 0 single_node_store (by rfl)⟩


theorem mapGet_mapInsert_self (m : List (String × Value)) (k : String) (v : Value) :
    mapGet (mapInsert m k v) k = some v := by
  induction m with
  | nil => simp [mapInsert, mapGet]
  | cons kv rest ih =>
    obtain ⟨k', v'⟩ := kv
    by_cases h : k' = k
    · simp [mapInsert, h, mapGet]
    · simp [mapInsert, h, mapGet, ih]

theorem mapGet_mapInsert_ne (m : List (String × Value)) (k k' : String) (v : Value)
    (h : k' ≠ k) : mapGet (mapInsert m k v) k' = mapGet m k' := by
  have hkk : ¬ (k = k') := fun hh => h hh.symm
  induction m with
  | nil =>
    simp only [mapInsert, mapGet]
    rw [if_neg hkk]
  | cons kv rest ih =>
    obtain ⟨k₀, v₀⟩ := kv
    by_cases h₀ : k₀ = k
    · subst h₀
      simp only [mapInsert, if_pos rfl, mapGet]
      rw [if_neg hkk, if_neg hkk]
    · simp only [mapInsert, if_neg h₀, mapGet]
      by_cases h₁ : k₀ = k'
      · rw [if_pos h₁, if_pos h₁]
      · rw [if_neg h₁, if_neg h₁, ih]

theorem envSet_eq_nearest (fuel : Nat) :
    ∀ (st : Store) (i : Nat) (k : String) (v : Value),
    envSet fuel st i k v =
      (nearest_binding_node fuel st i k).bind fun j =>
        (st[j]?).map fun node => st.set j { node with vars := mapInsert node.vars k v } := by
  induction fuel with
  | zero => intro st i k v; rfl
  | succ n ih =>
    intro st i k v
    simp only [envSet, nearest_binding_node]
    cases hnode : st[i]? with
    | none => rfl
    | some node =>
      cases hb : (mapGet node.vars k).isSome with
      | true => simp [hnode, hb]
      | false =>
        cases hp : node.parent with
        | some p => simpa [hnode, hb, hp] using ih st p k v
        | none => simp [hnode, hb, hp]


theorem nearest_binding_node_chain (fuel : Nat) :
    ∀ (st : Store) (i : Nat) (k : String),
    (nearest_binding_node fuel st i k).isSome ↔
      ∃ j, j ∈ env_chain fuel st i ∧
        ∃ node, st[j]? = some node ∧ (mapGet node.vars k).isSome := by
  induction fuel with
  | zero =>
    intro st i k
    simp [nearest_binding_node, env_chain]
  | succ n ih =>
    intro st i k
    simp only [nearest_binding_node, env_chain]
    cases hnode : st[i]? with
    | none => simp
    | some node =>
      cases hb : (mapGet node.vars k).isSome with
      | true =>
        simp only [hb, if_true]
        constructor
        · intro _
          exact ⟨i, by simp, node, hnode, hb⟩
        · intro _
          simp
      | false =>
        simp only [hb, Bool.false_eq_true, if_false]
        cases hp : node.parent with
        | some p =>
          rw [ih st p k]
          constructor
          · rintro ⟨j, hj, hbound⟩
            exact ⟨j, by simp [hj], hbound⟩
          · rintro ⟨j, hj, hbound⟩
            simp only [List.mem_cons] at hj
            rcases hj with rfl | hj
            · obtain ⟨node', hn', hb'⟩ := hbound
              rw [hnode] at hn'
              injection hn' with hn'
              rw [← hn', hb] at hb'
              exact absurd hb' (by simp)
            · exact ⟨j, hj, hbound⟩
        | none =>
          simp only [Option.isSome_none, Bool.false_eq_true, false_iff]
          rintro ⟨j, hj, hbound⟩
          simp only [List.mem_cons, List.not_mem_nil, or_false] at hj
          subst hj
          obtain ⟨node', hn', hb'⟩ := hbound
          rw [hnode] at hn'
          injection hn' with hn'
          rw [← hn', hb] at hb'
          exact absurd hb' (by simp)

/-- C6: `envSet` is exactly the spec walk — it mutates the nearest node,
walking upward, that already defines the key (`nearest_binding_node`,
whose success is equivalent to the name being bound somewhere in the
chain), leaving every other node and every other binding of that node
untouched; when no node in the chain defines the key, `set!` fails with a
RuntimeError naming the variable and `envSet` yields no store at all, so
no binding is created anywhere in the chain. -/
theorem set_mutates_nearest_node_or_errors :
    (∀ (fuel : Nat) (st : Store) (i : Nat) (k : String) (v : Value),
        envSet fuel st i k v =
          (nearest_binding_node fuel st i k).bind fun j =>
            (st[j]?).map fun node => st.set j { node with vars := mapInsert node.vars k v }) ∧
    (∀ (fuel : Nat) (st : Store) (i : Nat) (k : String),
        (nearest_binding_node fuel st i k).isSome ↔
          ∃ j, j ∈ env_chain fuel st i ∧
            ∃ node, st[j]? = some node ∧ (mapGet node.vars k).isSome) ∧
    (∀ (st : Store) (i j : Nat) (k : String) (v : Value) (node : EnvNode),
        nearest_binding_node st.length st i k = some j → st[j]? = some node →
        envSet st.length st i k v =
            some (st.set j { node with vars := mapInsert node.vars k v }) ∧
          (st.set j { node with vars := mapInsert node.vars k v }).length = st.length ∧
          (∀ j', j' ≠ j →
            (st.set j { node with vars := mapInsert node.vars k v })[j']? = st[j']?) ∧
          mapGet (mapInsert node.vars k v) k = some v ∧
          (∀ k', k' ≠ k → mapGet (mapInsert node.vars k v) k' = mapGet node.vars k')) ∧
    (∀ (recEval : EvalFn) (name : String) (expr : Value) (env : Nat) (st : Store)
        (val : Value) (st' : Store),
        recEval expr env st = .ok val st' →
        nearest_binding_node st'.length st' env name = none →
        apply_native recEval .setBang [.Symbol name, expr] env st =
            .rtErr ("Can't set! an undefined variable: " ++ rust_string_debug name) ∧
          envSet st'.length st' env name val = none) := by
  refine ⟨envSet_eq_nearest, nearest_binding_node_chain, ?_, ?_⟩
  · intro st i j k v node hnear hnode
    have hset : envSet st.length st i k v =
        some (st.set j { node with vars := mapInsert node.vars k v }) := by
      rw [envSet_eq_nearest, hnear, Option.some_bind, hnode]
      rfl
    refine ⟨hset, List.length_set _ _ _, ?_, mapGet_mapInsert_self node.vars k v,
      fun k' hk' => mapGet_mapInsert_ne node.vars k k' v hk'⟩
    intro j' hj'
    exact List.getElem?_set_ne (fun h => hj' h.symm)
  · intro recEval name expr env st val st' hval hnone
    have hset : envSet st'.length st' env name val = none := by
      rw [envSet_eq_nearest, hnone, Option.none_bind]
    refine ⟨?_, hset⟩
    show native_set recEval [.Symbol name, expr] env st = _
    rw [native_set]
    simp only [List.length_cons, List.length_nil]
    rw [if_neg (by omega)]
    show (recEval expr env st).andThen _ = _
    rw [hval]
    show (match envSet st'.length st' env name val with
      | some st'' => ResT.ok Value.null st''
      | none => .rtErr ("Can't set! an undefined variable: " ++ rust_string_debug name)) = _
    rw [hset]

/-- Witness for `set_mutates_nearest_node_or_errors`: on the two-node
store, `set!` of the root-bound `x` from the child scope mutates the root
node, and `set!` of the unbound `y` is the naming RuntimeError. -/
theorem set_mutates_nearest_node_or_errors_witness :
    (envSet two_node_store.length two_node_store 1 "x" (.Integer 5) =
      some (two_node_store.set 0
        { parent := none, vars := mapInsert [("x", .Integer 1)] "x" (.Integer 5) })) ∧
    (apply_native (evaluate_value 1) .setBang [.Symbol "y", .Integer 5] 1 two_node_store =
      .rtErr ("Can't set! an undefined variable: " ++ rust_string_debug "y")) :=
  ⟨(set_mutates_nearest_node_or_errors.2.2.1 two_node_store 1 0 "x" (.Integer 5)
      { parent := none, vars := [("x", .Integer 1)] } (by rfl) (by rfl)).1,
   (set_mutates_nearest_node_or_errors.2.2.2 (evaluate_value 1) "y" (.Integer 5) 1
      two_node_store (.Integer 5) two_node_store (by rfl) (by rfl)).1⟩

/-- C7 counterexample: `(/ 1 0)` aborts the host (Rust's division panic),
so its outcome is neither a RuntimeError result nor any error message —
the claim that a zero divisor is reported as a RuntimeError is false on
this code. -/
theorem divide_by_zero_is_a_panic :
    run_program 9 [.List [.Symbol "/", .Integer 1, .Integer 0]] =
        .panicked "attempt to divide by zero" ∧
      (run_program 9 [.List [.Symbol "/", .Integer 1, .Integer 0]]).isRuntimeError = false ∧
      (run_program 9 [.List [.Symbol "/", .Integer 1, .Integer 0]]).errorMessage = none :=
  ⟨rfl, rfl, rfl⟩

theorem sum_args_append_bad (recEval : EvalFn) :
    ∀ (pre : List Value) (acc : Int) (n : Value) (rest : List Value) (env : Nat)
      (st : Store) (acc' : Int) (st' : Store) (v : Value) (st'' : Store),
    sum_args recEval pre acc env st = .ok acc' st' →
    recEval n env st' = .ok v st'' → is_integer v = false →
    sum_args recEval (pre ++ n :: rest) acc env st =
      .rtErr ("Unexpected value during +: " ++ debug_fmt n) := by
  intro pre
  induction pre with
  | nil =>
    intro acc n rest env st acc' st' v st'' hpre hv hni
    have hpre' : ResT.ok acc st = ResT.ok acc' st' := hpre
    injection hpre' with h1 h2
    subst h2
    show (recEval n env st).andThen _ = _
    rw [hv]
    cases v with
    | Integer x => exact absurd hni (by simp [is_integer])
    | Symbol s => rfl
    | Boolean b => rfl
    | String s => rfl
    | List l => rfl
    | Procedure p => rfl
    | Macro a b => rfl
    | CustomType a b => rfl
  | cons p ps ih =>
    intro acc n rest env st acc' st' v st'' hpre hv hni
    have hpre' : ((recEval p env st).andThen fun w st₁ =>
        match w with
        | .Integer x =>
          if inI64 (acc + x) then sum_args recEval ps (acc + x) env st₁
          else .panicked "attempt to add with overflow"
        | _ => .rtErr ("Unexpected value during +: " ++ debug_fmt p)) = .ok acc' st' := hpre
    show ((recEval p env st).andThen fun w st₁ =>
        match w with
        | .Integer x =>
          if inI64 (acc + x) then sum_args recEval (ps ++ n :: rest) (acc + x) env st₁
          else .panicked "attempt to add with overflow"
        | _ => .rtErr ("Unexpected value during +: " ++ debug_fmt p)) =
      .rtErr ("Unexpected value during +: " ++ debug_fmt n)
    cases hp : recEval p env st with
    | rtErr m => rw [hp] at hpre'; exact ResT.noConfusion hpre'
    | panicked m => rw [hp] at hpre'; exact ResT.noConfusion hpre'
    | fuelOut => rw [hp] at hpre'; exact ResT.noConfusion hpre'
    | ok w st₁ =>
      rw [hp] at hpre'
      simp only [ResT.andThen] at hpre' ⊢
      cases w with
      | Integer x =>
        replace hpre' : (if inI64 (acc + x) = true then sum_args recEval ps (acc + x) env st₁
            else ResT.panicked "attempt to add with overflow") = ResT.ok acc' st' := hpre'
        show (if inI64 (acc + x) = true then
            sum_args recEval (ps ++ n :: rest) (acc + x) env st₁
          else ResT.panicked "attempt to add with overflow") =
          ResT.rtErr ("Unexpected value during +: " ++ debug_fmt n)
        by_cases hov : inI64 (acc + x) = true
        · rw [if_pos hov] at hpre' ⊢
          exact ih (acc + x) n rest env st₁ acc' st' v st'' hpre' hv hni
        · rw [if_neg hov] at hpre'
          exact ResT.noConfusion hpre'
      | Symbol s => exact ResT.noConfusion hpre'
      | Boolean b => exact ResT.noConfusion hpre'
      | String s => exact ResT.noConfusion hpre'
      | List l => exact ResT.noConfusion hpre'
      | Procedure p2 => exact ResT.noConfusion hpre'
      | Macro a b => exact ResT.noConfusion hpre'
      | CustomType a b => exact ResT.noConfusion hpre'

theorem product_args_append_bad (recEval : EvalFn) :
    ∀ (pre : List Value) (acc : Int) (n : Value) (rest : List Value) (env : Nat)
      (st : Store) (acc' : Int) (st' : Store) (v : Value) (st'' : Store),
    product_args recEval pre acc env st = .ok acc' st' →
    recEval n env st' = .ok v st'' → is_integer v = false →
    product_args recEval (pre ++ n :: rest) acc env st =
      .rtErr ("Unexpected value during *: " ++ debug_fmt n) := by
  intro pre
  induction pre with
  | nil =>
    intro acc n rest env st acc' st' v st'' hpre hv hni
    have hpre' : ResT.ok acc st = ResT.ok acc' st' := hpre
    injection hpre' with h1 h2
    subst h2
    show (recEval n env st).andThen _ = _
    rw [hv]
    cases v with
    | Integer x => exact absurd hni (by simp [is_integer])
    | Symbol s => rfl
    | Boolean b => rfl
    | String s => rfl
    | List l => rfl
    | Procedure p => rfl
    | Macro a b => rfl
    | CustomType a b => rfl
  | cons p ps ih =>
    intro acc n rest env st acc' st' v st'' hpre hv hni
    have hpre' : ((recEval p env st).andThen fun w st₁ =>
        match w with
        | .Integer x =>
          if inI64 (acc * x) then product_args recEval ps (acc * x) env st₁
          else .panicked "attempt to multiply with overflow"
        | _ => .rtErr ("Unexpected value during *: " ++ debug_fmt p)) = .ok acc' st' := hpre
    show ((recEval p env st).andThen fun w st₁ =>
        match w with
        | .Integer x =>
          if inI64 (acc * x) then product_args recEval (ps ++ n :: rest) (acc * x) env st₁
          else .panicked "attempt to multiply with overflow"
        | _ => .rtErr ("Unexpected value during *: " ++ debug_fmt p)) =
      .rtErr ("Unexpected value during *: " ++ debug_fmt n)
    cases hp : recEval p env st with
    | rtErr m => rw [hp] at hpre'; exact ResT.noConfusion hpre'
    | panicked m => rw [hp] at hpre'; exact ResT.noConfusion hpre'
    | fuelOut => rw [hp] at hpre'; exact ResT.noConfusion hpre'
    | ok w st₁ =>
      rw [hp] at hpre'
      simp only [ResT.andThen] at hpre' ⊢
      cases w with
      | Integer x =>
        replace hpre' : (if inI64 (acc * x) = true then product_args recEval ps (acc * x) env st₁
            else ResT.panicked "attempt to multiply with overflow") = ResT.ok acc' st' := hpre'
        show (if inI64 (acc * x) = true then
            product_args recEval (ps ++ n :: rest) (acc * x) env st₁
          else ResT.panicked "attempt to multiply with overflow") =
          ResT.rtErr ("Unexpected value during *: " ++ debug_fmt n)
        by_cases hov : inI64 (acc * x) = true
        · rw [if_pos hov] at hpre' ⊢
          exact ih (acc * x) n rest env st₁ acc' st' v st'' hpre' hv hni
        · rw [if_neg hov] at hpre'
          exact ResT.noConfusion hpre'
      | Symbol s => exact ResT.noConfusion hpre'
      | Boolean b => exact ResT.noConfusion hpre'
      | String s => exact ResT.noConfusion hpre'
      | List l => exact ResT.noConfusion hpre'
      | Procedure p2 => exact ResT.noConfusion hpre'
      | Macro a b => exact ResT.noConfusion hpre'
      | CustomType a b => exact ResT.noConfusion hpre'

/-- C7, amended: the arithmetic primitives `+ - * /` never coerce — for
each of the four, an evaluated operand that is not an Integer (at any
position: after any successfully summed/multiplied prefix for the
variadic `+` and `*`, and at either position for `-` and `/`) yields the
operation's RuntimeError, and a success value of each of the four is
always an Integer; a zero divisor in `/`, however, aborts the host
rather than producing a RuntimeError. -/
theorem arithmetic_type_errors_never_coerce :
    (∀ (recEval : EvalFn) (pre : List Value) (n : Value) (rest : List Value) (env : Nat)
        (st : Store) (acc' : Int) (st' : Store) (v : Value) (st'' : Store),
        sum_args recEval pre 0 env st = .ok acc' st' →
        recEval n env st' = .ok v st'' → is_integer v = false →
        2 ≤ (pre ++ n :: rest).length →
        native_plus recEval (pre ++ n :: rest) env st =
          .rtErr ("Unexpected value during +: " ++ debug_fmt n)) ∧
    (∀ (recEval : EvalFn) (args : List Value) (env : Nat) (st : Store) (v : Value)
        (st' : Store),
        native_plus recEval args env st = .ok v st' → ∃ x, v = .Integer x) ∧
    (∀ (recEval : EvalFn) (pre : List Value) (n : Value) (rest : List Value) (env : Nat)
        (st : Store) (acc' : Int) (st' : Store) (v : Value) (st'' : Store),
        product_args recEval pre 1 env st = .ok acc' st' →
        recEval n env st' = .ok v st'' → is_integer v = false →
        2 ≤ (pre ++ n :: rest).length →
        native_multiply recEval (pre ++ n :: rest) env st =
          .rtErr ("Unexpected value during *: " ++ debug_fmt n)) ∧
    (∀ (recEval : EvalFn) (args : List Value) (env : Nat) (st : Store) (v : Value)
        (st' : Store),
        native_multiply recEval args env st = .ok v st' → ∃ x, v = .Integer x) ∧
    (∀ (recEval : EvalFn) (a b : Value) (env : Nat) (st : Store) (l : Value) (st₁ : Store)
        (r : Value) (st₂ : Store),
        recEval a env st = .ok l st₁ → recEval b env st₁ = .ok r st₂ →
        is_integer l = false ∨ is_integer r = false →
        native_minus recEval [a, b] env st =
          .rtErr ("Unexpected value during -: " ++ slice_debug_fmt [a, b])) ∧
    (∀ (recEval : EvalFn) (args : List Value) (env : Nat) (st : Store) (v : Value)
        (st' : Store),
        native_minus recEval args env st = .ok v st' → ∃ x, v = .Integer x) ∧
    (∀ (recEval : EvalFn) (a b : Value) (env : Nat) (st : Store) (l : Value) (st₁ : Store)
        (r : Value) (st₂ : Store),
        recEval a env st = .ok l st₁ → recEval b env st₁ = .ok r st₂ →
        is_integer l = false ∨ is_integer r = false →
        native_divide recEval [a, b] env st =
          .rtErr ("Unexpected value during /: " ++ slice_debug_fmt [a, b])) ∧
    (∀ (recEval : EvalFn) (args : List Value) (env : Nat) (st : Store) (v : Value)
        (st' : Store),
        native_divide recEval args env st = .ok v st' → ∃ x, v = .Integer x) ∧
    (∀ (recEval : EvalFn) (a b : Value) (env : Nat) (st : Store) (x : Int) (st₁ : Store)
        (st₂ : Store),
        recEval a env st = .ok (.Integer x) st₁ → recEval b env st₁ = .ok (.Integer 0) st₂ →
        native_divide recEval [a, b] env st = .panicked "attempt to divide by zero") := by
  refine ⟨?_, ?_, ?_, ?_, ?_, ?_, ?_, ?_, ?_⟩
  · intro recEval pre n rest env st acc' st' v st'' hpre hv hni hlen
    rw [native_plus]
    rw [if_neg (by omega)]
    rw [sum_args_append_bad recEval pre 0 n rest env st acc' st' v st'' hpre hv hni]
    rfl
  · intro recEval args env st v st' h
    rw [native_plus] at h
    split at h
    · exact absurd h (by intro hh; exact ResT.noConfusion hh)
    · cases hsum : sum_args recEval args 0 env st <;> rw [hsum] at h <;>
        first
        | exact absurd h (by intro hh; exact ResT.noConfusion hh)
        | (injection h with h1 h2; exact ⟨_, h1.symm⟩)
  · intro recEval pre n rest env st acc' st' v st'' hpre hv hni hlen
    rw [native_multiply]
    rw [if_neg (by omega)]
    rw [product_args_append_bad recEval pre 1 n rest env st acc' st' v st'' hpre hv hni]
    rfl
  · intro recEval args env st v st' h
    rw [native_multiply] at h
    split at h
    · exact absurd h (by intro hh; exact ResT.noConfusion hh)
    · cases hprod : product_args recEval args 1 env st <;> rw [hprod] at h <;>
        first
        | exact absurd h (by intro hh; exact ResT.noConfusion hh)
        | (injection h with h1 h2; exact ⟨_, h1.symm⟩)
  · intro recEval a b env st l st₁ r st₂ hl hr hni
    rw [native_minus]
    rw [if_neg (by simp)]
    show (recEval a env st).andThen _ = _
    rw [hl]
    show (recEval b env st₁).andThen _ = _
    rw [hr]
    cases l with
    | Integer x =>
      cases r with
      | Integer y =>
        rcases hni with hni | hni <;> exact absurd hni (by simp [is_integer])
      | Symbol s => rfl
      | Boolean c => rfl
      | String s => rfl
      | List li => rfl
      | Procedure p => rfl
      | Macro m1 m2 => rfl
      | CustomType c1 c2 => rfl
    | Symbol s => rfl
    | Boolean c => rfl
    | String s => rfl
    | List li => rfl
    | Procedure p => rfl
    | Macro m1 m2 => rfl
    | CustomType c1 c2 => rfl
  · intro recEval args env st v st' h
    rcases args with _ | ⟨a, _ | ⟨b, _ | ⟨c, rest⟩⟩⟩
    · exact ResT.noConfusion h
    · exact ResT.noConfusion h
    · replace h : ((recEval a env st).andThen fun l st₁ =>
        (recEval b env st₁).andThen fun r st₂ =>
          match l with
          | .Integer x =>
            match r with
            | .Integer y =>
              if inI64 (x - y) then .ok (Value.Integer (x - y)) st₂
              else .panicked "attempt to subtract with overflow"
            | _ => .rtErr ("Unexpected value during -: " ++ slice_debug_fmt [a, b])
          | _ => .rtErr ("Unexpected value during -: " ++ slice_debug_fmt [a, b])) =
          ResT.ok v st' := h
      cases ha : recEval a env st with
      | rtErr m => rw [ha] at h; exact ResT.noConfusion h
      | panicked m => rw [ha] at h; exact ResT.noConfusion h
      | fuelOut => rw [ha] at h; exact ResT.noConfusion h
      | ok l st₁ =>
        rw [ha] at h
        simp only [ResT.andThen] at h
        cases hb : recEval b env st₁ with
        | rtErr m => rw [hb] at h; exact ResT.noConfusion h
        | panicked m => rw [hb] at h; exact ResT.noConfusion h
        | fuelOut => rw [hb] at h; exact ResT.noConfusion h
        | ok r st₂ =>
          rw [hb] at h
          simp only [ResT.andThen] at h
          cases l with
          | Symbol s => exact ResT.noConfusion h
          | Boolean c => exact ResT.noConfusion h
          | String s => exact ResT.noConfusion h
          | List li => exact ResT.noConfusion h
          | Procedure p => exact ResT.noConfusion h
          | Macro m1 m2 => exact ResT.noConfusion h
          | CustomType c1 c2 => exact ResT.noConfusion h
          | Integer x =>
            cases r with
            | Symbol s => exact ResT.noConfusion h
            | Boolean c => exact ResT.noConfusion h
            | String s => exact ResT.noConfusion h
            | List li => exact ResT.noConfusion h
            | Procedure p => exact ResT.noConfusion h
            | Macro m1 m2 => exact ResT.noConfusion h
            | CustomType c1 c2 => exact ResT.noConfusion h
            | Integer y =>
              replace h : (if inI64 (x - y) = true then ResT.ok (Value.Integer (x - y)) st₂
                  else ResT.panicked "attempt to subtract with overflow") = ResT.ok v st' := h
              by_cases hin : inI64 (x - y) = true
              · rw [if_pos hin] at h
                injection h with h1 h2
                exact ⟨_, h1.symm⟩
              · rw [if_neg hin] at h
                exact ResT.noConfusion h
    · exact ResT.noConfusion h
  · intro recEval a b env st l st₁ r st₂ hl hr hni
    rw [native_divide]
    rw [if_neg (by simp)]
    show (recEval a env st).andThen _ = _
    rw [hl]
    show (recEval b env st₁).andThen _ = _
    rw [hr]
    cases l with
    | Integer x =>
      cases r with
      | Integer y =>
        rcases hni with hni | hni <;> exact absurd hni (by simp [is_integer])
      | Symbol s => rfl
      | Boolean c => rfl
      | String s => rfl
      | List li => rfl
      | Procedure p => rfl
      | Macro m1 m2 => rfl
      | CustomType c1 c2 => rfl
    | Symbol s => rfl
    | Boolean c => rfl
    | String s => rfl
    | List li => rfl
    | Procedure p => rfl
    | Macro m1 m2 => rfl
    | CustomType c1 c2 => rfl
  · intro recEval args env st v st' h
    rcases args with _ | ⟨a, _ | ⟨b, _ | ⟨c, rest⟩⟩⟩
    · exact ResT.noConfusion h
    · exact ResT.noConfusion h
    · replace h : ((recEval a env st).andThen fun l st₁ =>
        (recEval b env st₁).andThen fun r st₂ =>
          match l with
          | .Integer x =>
            match r with
            | .Integer y =>
              if y = 0 then ResT.panicked "attempt to divide by zero"
              else if x = i64Min ∧ y = -1 then ResT.panicked "attempt to divide with overflow"
              else .ok (.Integer (Int.tdiv x y)) st₂
            | _ => .rtErr ("Unexpected value during /: " ++ slice_debug_fmt [a, b])
          | _ => .rtErr ("Unexpected value during /: " ++ slice_debug_fmt [a, b])) =
          ResT.ok v st' := h
      cases ha : recEval a env st with
      | rtErr m => rw [ha] at h; exact ResT.noConfusion h
      | panicked m => rw [ha] at h; exact ResT.noConfusion h
      | fuelOut => rw [ha] at h; exact ResT.noConfusion h
      | ok l st₁ =>
        rw [ha] at h
        simp only [ResT.andThen] at h
        cases hb : recEval b env st₁ with
        | rtErr m => rw [hb] at h; exact ResT.noConfusion h
        | panicked m => rw [hb] at h; exact ResT.noConfusion h
        | fuelOut => rw [hb] at h; exact ResT.noConfusion h
        | ok r st₂ =>
          rw [hb] at h
          simp only [ResT.andThen] at h
          cases l with
          | Symbol s => exact ResT.noConfusion h
          | Boolean c => exact ResT.noConfusion h
          | String s => exact ResT.noConfusion h
          | List li => exact ResT.noConfusion h
          | Procedure p => exact ResT.noConfusion h
          | Macro m1 m2 => exact ResT.noConfusion h
          | CustomType c1 c2 => exact ResT.noConfusion h
          | Integer x =>
            cases r with
            | Symbol s => exact ResT.noConfusion h
            | Boolean c => exact ResT.noConfusion h
            | String s => exact ResT.noConfusion h
            | List li => exact ResT.noConfusion h
            | Procedure p => exact ResT.noConfusion h
            | Macro m1 m2 => exact ResT.noConfusion h
            | CustomType c1 c2 => exact ResT.noConfusion h
            | Integer y =>
              replace h : (if y = 0 then ResT.panicked "attempt to divide by zero"
                  else if x = i64Min ∧ y = -1 then
                    ResT.panicked "attempt to divide with overflow"
                  else ResT.ok (Value.Integer (Int.tdiv x y)) st₂) = ResT.ok v st' := h
              by_cases hy : y = 0
              · rw [if_pos hy] at h
                exact ResT.noConfusion h
              · rw [if_neg hy] at h
                by_cases hmin : x = i64Min ∧ y = -1
                · rw [if_pos hmin] at h
                  exact ResT.noConfusion h
                · rw [if_neg hmin] at h
                  injection h with h1 h2
                  exact ⟨_, h1.symm⟩
    · exact ResT.noConfusion h
  · intro recEval a b env st x st₁ st₂ hl hr
    rw [native_divide]
    rw [if_neg (by simp)]
    show (recEval a env st).andThen _ = _
    rw [hl]
    show (recEval b env st₁).andThen _ = _
    rw [hr]
    rfl

/-- Witness for `arithmetic_type_errors_never_coerce`: a Boolean second
operand to `+` and a String second operand to `*` are the respective
RuntimeErrors, a concrete `-` success is an Integer, and `(/ 1 0)`'s
native call panics. -/
theorem arithmetic_type_errors_never_coerce_witness :
    (native_plus (evaluate_value 1) [.Integer 2, .Boolean true] 0 initialStore =
      .rtErr ("Unexpected value during +: " ++ debug_fmt (.Boolean true))) ∧
    (native_multiply (evaluate_value 1) [.Integer 2, .String "s"] 0 initialStore =
      .rtErr ("Unexpected value during *: " ++ debug_fmt (.String "s"))) ∧
    (∃ x, Value.Integer 2 = Value.Integer x) ∧
    (native_divide (evaluate_value 1) [.Integer 1, .Integer 0] 0 initialStore =
      .panicked "attempt to divide by zero") :=
  ⟨arithmetic_type_errors_never_coerce.1 (evaluate_value 1) [.Integer 2] (.Boolean true) []
      0 initialStore 2 initialStore (.Boolean true) initialStore (by rfl) (by rfl) (by rfl)
      (by decide),
   arithmetic_type_errors_never_coerce.2.2.1 (evaluate_value 1) [.Integer 2] (.String "s") []
      0 initialStore 2 initialStore (.String "s") initialStore (by rfl) (by rfl) (by rfl)
      (by decide),
   arithmetic_type_errors_never_coerce.2.2.2.2.2.1 (evaluate_value 1) [.Integer 5, .Integer 3]
      0 initialStore (.Integer 2) initialStore (by rfl),
   arithmetic_type_errors_never_coerce.2.2.2.2.2.2.2.2 (evaluate_value 1) (.Integer 1)
      (.Integer 0) 0 initialStore 1 initialStore initialStore (by rfl) (by rfl)⟩

theorem zip_truncates (names : List String) :
    ∀ (args extra : List Value), names.length ≤ args.length →
    names.zip (args ++ extra) = names.zip args := by
  induction names with
  | nil => intro args extra _; simp
  | cons n ns ih =>
    intro args extra h
    cases args with
    | nil => simp at h
    | cons a as =>
      simp only [List.cons_append, List.zip_cons_cons, List.cons.injEq, true_and]
      exact ih as extra (by simpa using h)

theorem mapGet_foldl_insert :
    ∀ (pairs : List (String × Value)) (m : List (String × Value)) (s : String),
    s ∉ pairs.map Prod.fst →
    mapGet (pairs.foldl (fun m kv => mapInsert m kv.1 kv.2) m) s = mapGet m s := by
  intro pairs
  induction pairs with
  | nil => intro m s _; rfl
  | cons kv rest ih =>
    intro m s hs
    obtain ⟨k, v⟩ := kv
    simp only [List.map_cons, List.mem_cons, not_or] at hs
    rw [List.foldl_cons, ih (mapInsert m k v) s hs.2]
    exact mapGet_mapInsert_ne m k s v hs.1

/-- C9: macro application performs no arity check — the expansion is just
the substituted body evaluated at the use site; parameter names and
argument expressions are paired positionally by `zip`, so arguments
beyond the parameter list leave the expansion unchanged (silently
ignored), and a parameter name not paired with any argument is left in
the expansion as a literal symbol.  The demonstration programs call a
two-parameter macro with one and with three arguments. -/
theorem macro_application_never_arity_errors :
    (∀ (recEval : EvalFn) (names : List String) (body args : List Value) (env : Nat)
        (st : Store),
        expand_macro_apply recEval names body args env st =
          evaluate_values recEval
            (expand_macro_substitute_values (make_substitutions (names.zip args)) body)
            env st) ∧
    (∀ (recEval : EvalFn) (names : List String) (body args extra : List Value) (env : Nat)
        (st : Store), names.length ≤ args.length →
        expand_macro_apply recEval names body (args ++ extra) env st =
          expand_macro_apply recEval names body args env st) ∧
    (∀ (names : List String) (args : List Value) (s : String),
        s ∉ (names.zip args).map Prod.fst →
        expand_macro_substitute_value (make_substitutions (names.zip args)) (.Symbol s) =
          .Symbol s) ∧
    ((run_program 9 [
        .List [.Symbol "define-syntax-rule", .List [.Symbol "m", .Symbol "a", .Symbol "b"],
          .List [.Symbol "quote", .List [.Symbol "a", .Symbol "b"]]],
        .List [.Symbol "m", .Integer 1]]).value = some (.List [.Integer 1, .Symbol "b"])) ∧
    ((run_program 9 [
        .List [.Symbol "define-syntax-rule", .List [.Symbol "m", .Symbol "a", .Symbol "b"],
          .List [.Symbol "quote", .List [.Symbol "a", .Symbol "b"]]],
        .List [.Symbol "m", .Integer 1, .Integer 2, .Integer 3]]).value =
      some (.List [.Integer 1, .Integer 2])) := by
  refine ⟨fun recEval names body args env st => rfl, ?_, ?_, rfl, rfl⟩
  · intro recEval names body args extra env st h
    rw [expand_macro_apply, expand_macro_apply, zip_truncates names args extra h]
  · intro names args s hs
    show (match mapGet (make_substitutions (names.zip args)) s with
      | some v => v
      | none => Value.Symbol s) = Value.Symbol s
    rw [make_substitutions, mapGet_foldl_insert (names.zip args) [] s hs]
    rfl

/-- Witness for `macro_application_never_arity_errors`: a two-parameter
macro body with five arguments expands exactly as with two, and an
unpaired parameter symbol substitutes to itself. -/
theorem macro_application_never_arity_errors_witness :
    (expand_macro_apply (evaluate_value 3) ["a", "b"] [.Symbol "a"]
        ([.Integer 1, .Integer 2] ++ [.Integer 3, .Integer 4, .Integer 5]) 0 initialStore =
      expand_macro_apply (evaluate_value 3) ["a", "b"] [.Symbol "a"]
        [.Integer 1, .Integer 2] 0 initialStore) ∧
    (expand_macro_substitute_value (make_substitutions (["a", "b"].zip [.Integer 1]))
        (.Symbol "b") = .Symbol "b") :=
  ⟨macro_application_never_arity_errors.2.1 (evaluate_value 3) ["a", "b"] [.Symbol "a"]
      [.Integer 1, .Integer 2] [.Integer 3, .Integer 4, .Integer 5] 0 initialStore
      (by decide),
   macro_application_never_arity_errors.2.2.1 ["a", "b"] [.Integer 1] "b" (by decide)⟩

theorem apply_function_via_eval (fuel : Nat) (f : Function) (args : List Value) (env : Nat)
    (st : Store) :
    evaluate_value (fuel+2) (.List (.Procedure f :: args)) env st =
      apply_function (evaluate_value (fuel+1)) f args env st := by
  show evaluate_value_step (evaluate_value (fuel+1)) (.List (.Procedure f :: args)) env st = _
  rw [evaluate_value_step]
  rw [if_pos (show (Value.Procedure f :: args).length > 0 by simp)]
  rw [evaluate_expression]
  show ((evaluate_value (fuel+1) (.Procedure f) env st).andThen _ : Res) = _
  rfl

/-- C4 counterexample: `(apply (lambda (x) x) (quote ((1 2))))` — the
claim predicts the element `(1 2)` is bound to `x` without re-evaluation,
returning `(1 2)`; the code instead pushes the element back through
ordinary evaluation, which treats it as an application of `1` and fails. -/
theorem apply_reevaluates_closure_arguments :
    run_program 9 [.List [.Symbol "apply",
        .List [.Symbol "lambda", .List [.Symbol "x"], .Symbol "x"],
        .List [.Symbol "quote", .List [.List [.Integer 1, .Integer 2]]]]] =
      .rtErr "First element in an expression must be a procedure: 1" ∧
    (run_program 9 [.List [.Symbol "apply",
        .List [.Symbol "lambda", .List [.Symbol "x"], .Symbol "x"],
        .List [.Symbol "quote", .List [.List [.Integer 1, .Integer 2]]]]]).value = none :=
  ⟨rfl, rfl⟩

/-- C4, amended: `apply` evaluates its first argument, which must yield a
Procedure (RuntimeError otherwise), then its second, which must yield a
List (RuntimeError otherwise), and hands the list's elements to the
ordinary application path — so for a Closure each element is evaluated
again by the normal evaluate-then-bind step rather than bound as-is.
Self-evaluating elements are unaffected, as the `(apply + '(1 2 3))`
demonstration shows. -/
theorem native_apply_uses_ordinary_application :
    (∀ (fuel : Nat) (a b : Value) (env : Nat) (st : Store),
        apply_native (evaluate_value (fuel+2)) .apply [a, b] env st =
          apply_spec (evaluate_value (fuel+2))
            (fun func elements env' st' => apply_function (evaluate_value (fuel+1)) func
              elements env' st')
            a b env st) ∧
    (∀ (recEval : EvalFn) (a b : Value) (env : Nat) (st : Store) (v : Value) (st₁ : Store),
        recEval a env st = .ok v st₁ → is_procedure v = false →
        apply_native recEval .apply [a, b] env st =
          .rtErr ("First argument to apply must be a procedure: " ++ slice_debug_fmt [a, b])) ∧
    (∀ (recEval : EvalFn) (a b : Value) (env : Nat) (st : Store) (func : Function)
        (st₁ : Store) (v : Value) (st₂ : Store),
        recEval a env st = .ok (.Procedure func) st₁ → recEval b env st₁ = .ok v st₂ →
        is_list v = false →
        apply_native recEval .apply [a, b] env st =
          .rtErr ("Second argument to apply must be a list of arguments: " ++
            slice_debug_fmt [a, b])) ∧
    ((run_program 9 [.List [.Symbol "apply", .Symbol "+", .List [.Symbol "quote",
        .List [.Integer 1, .Integer 2, .Integer 3]]]]).value = some (.Integer 6)) := by
  refine ⟨?_, ?_, ?_, rfl⟩
  · intro fuel a b env st
    show (evaluate_value (fuel+2) a env st).andThen _ =
      (evaluate_value (fuel+2) a env st).andThen _
    refine ResT.andThen_congr _ fun fv st₁ => ?_
    cases fv with
    | Procedure func =>
      show (evaluate_value (fuel+2) b env st₁).andThen _ =
        (evaluate_value (fuel+2) b env st₁).andThen _
      refine ResT.andThen_congr _ fun lv st₂ => ?_
      cases lv with
      | List elements => exact apply_function_via_eval fuel func elements env st₂
      | Symbol s => rfl
      | Integer n => rfl
      | Boolean c => rfl
      | String s => rfl
      | Procedure p => rfl
      | Macro m1 m2 => rfl
      | CustomType c1 c2 => rfl
    | Symbol s => rfl
    | Integer n => rfl
    | Boolean c => rfl
    | String s => rfl
    | List l => rfl
    | Macro m1 m2 => rfl
    | CustomType c1 c2 => rfl
  · intro recEval a b env st v st₁ hv hnp
    show (recEval a env st).andThen _ = _
    rw [hv]
    cases v with
    | Procedure p => exact absurd hnp (by simp [is_procedure])
    | Symbol s => rfl
    | Integer n => rfl
    | Boolean c => rfl
    | String s => rfl
    | List l => rfl
    | Macro m1 m2 => rfl
    | CustomType c1 c2 => rfl
  · intro recEval a b env st func st₁ v st₂ ha hb hnl
    show (recEval a env st).andThen _ = _
    rw [ha]
    show (recEval b env st₁).andThen _ = _
    rw [hb]
    cases v with
    | List l => exact absurd hnl (by simp [is_list])
    | Symbol s => rfl
    | Integer n => rfl
    | Boolean c => rfl
    | String s => rfl
    | Procedure p => rfl
    | Macro m1 m2 => rfl
    | CustomType c1 c2 => rfl

/-- Witness for `native_apply_uses_ordinary_application`: a non-procedure
first argument and a non-list second argument at concrete inputs. -/
theorem native_apply_uses_ordinary_application_witness :
    (apply_native (evaluate_value 1) .apply [.Integer 7, .Integer 8] 0 initialStore =
      .rtErr ("First argument to apply must be a procedure: " ++
        slice_debug_fmt [.Integer 7, .Integer 8])) ∧
    (apply_native (evaluate_value 2) .apply [.Symbol "car", .Integer 8] 0 initialStore =
      .rtErr ("Second argument to apply must be a list of arguments: " ++
        slice_debug_fmt [.Symbol "car", .Integer 8])) :=
  ⟨native_apply_uses_ordinary_application.2.1 (evaluate_value 1) (.Integer 7) (.Integer 8)
      0 initialStore (.Integer 7) initialStore (by rfl) (by rfl),
   native_apply_uses_ordinary_application.2.2.1 (evaluate_value 2) (.Symbol "car") (.Integer 8)
      0 initialStore (.Native .car) initialStore (.Integer 8) initialStore (by rfl) (by rfl)
      (by rfl)⟩

mutual
theorem quote_value_quasi_eq_spec (recEval : EvalFn) :
    ∀ (v : Value) (env : Nat) (st : Store),
    quote_value recEval v true env st = quasiquote_spec recEval v env st
  | .Symbol s, _, _ => rfl
  | .Integer n, _, _ => rfl
  | .Boolean b, _, _ => rfl
  | .String s, _, _ => rfl
  | .Procedure f, _, _ => rfl
  | .Macro a b, _, _ => rfl
  | .CustomType t i, _, _ => rfl
  | .List vec, env, st => by
    show (if true && unquote_form vec then unquote_arm recEval vec env st
        else (quote_value_list recEval vec true env st).andThen fun new_vec st' =>
          .ok (.List new_vec) st') =
      (if unquote_form vec then unquote_arm recEval vec env st
        else (quasiquote_spec_list recEval vec env st).andThen fun vs' st' =>
          .ok (.List vs') st')
    rw [Bool.true_and]
    by_cases h : unquote_form vec
    · rw [if_pos h, if_pos h]
    · rw [if_neg h, if_neg h, quote_value_list_quasi_eq_spec recEval vec env st]

theorem quote_value_list_quasi_eq_spec (recEval : EvalFn) :
    ∀ (vs : List Value) (env : Nat) (st : Store),
    quote_value_list recEval vs true env st = quasiquote_spec_list recEval vs env st
  | [], _, _ => rfl
  | v :: rest, env, st => by
    show (quote_value recEval v true env st).andThen _ =
      (quasiquote_spec recEval v env st).andThen _
    rw [quote_value_quasi_eq_spec recEval v env st]
    refine ResT.andThen_congr _ fun v' st' => ?_
    show (quote_value_list recEval rest true env st').andThen _ =
      (quasiquote_spec_list recEval rest env st').andThen _
    rw [quote_value_list_quasi_eq_spec recEval rest env st']
end

/-- C5 counterexample: `(quasiquote (quote (unquote (+ 1 2))))` yields
`(quote 3)` — the unquote inside the nested `quote` form was evaluated —
whereas the claim's final clause says the nested quote's contents are not
specially unquoted, which would leave `(quote (unquote (+ 1 2)))`. -/
theorem quasiquote_unquotes_inside_nested_quote :
    ((run_program 9 [.List [.Symbol "quasiquote",
        .List [.Symbol "quote", .List [.Symbol "unquote",
          .List [.Symbol "+", .Integer 1, .Integer 2]]]]]).value =
      some (.List [.Symbol "quote", .Integer 3])) ∧
    ((.List [.Symbol "quote", .Integer 3] : Value) ≠
      .List [.Symbol "quote", .List [.Symbol "unquote",
        .List [.Symbol "+", .Integer 1, .Integer 2]]]) :=
  ⟨rfl, by
    intro h
    injection h with hl
    injection hl with h1 h2
    injection h2 with h3 h4
    exact Value.noConfusion h3⟩

/-- C5, amended: `(quasiquote V)` returns `V` structurally copied except
that every `(unquote X)` form found anywhere in the structure — including
inside a nested `quote` sub-form, which receives no special treatment —
is replaced by the result of evaluating `X` in the current environment,
an unquote form with other than exactly one argument being a
RuntimeError; the demonstrations show splicing and the unquote arity
error. -/
theorem quasiquote_replaces_unquote_everywhere :
    (∀ (recEval : EvalFn) (v : Value) (env : Nat) (st : Store),
        quote_value recEval v true env st = quasiquote_spec recEval v env st) ∧
    (∀ (recEval : EvalFn) (arg : Value) (env : Nat) (st : Store),
        apply_native recEval .quasiquote [arg] env st = quasiquote_spec recEval arg env st) ∧
    ((run_program 9 [.List [.Symbol "quasiquote",
        .List [.Integer 2, .List [.Symbol "unquote",
          .List [.Symbol "+", .Integer 1, .Integer 2]], .Integer 4]]]).value =
      some (.List [.Integer 2, .Integer 3, .Integer 4])) ∧
    (run_program 9 [.List [.Symbol "quasiquote", .List [.Symbol "unquote"]]] =
      .rtErr "Must supply exactly one argument to unquote: [unquote]") := by
  refine ⟨quote_value_quasi_eq_spec, ?_, rfl, rfl⟩
  intro recEval arg env st
  show quote_value recEval arg true env st = _
  exact quote_value_quasi_eq_spec recEval arg env st

theorem ResLe_refl {α : Type} (a : ResT α) : ResLe a a := fun _ => rfl

theorem ResLe_andThen {α β : Type} {a b : ResT α} {f g : α → Store → ResT β}
    (hab : ResLe a b) (hfg : ∀ v st, ResLe (f v st) (g v st)) :
    ResLe (a.andThen f) (b.andThen g) := by
  intro hne
  cases a with
  | ok v st =>
    rw [hab ResT.ok_ne_fuelOut]
    exact hfg v st hne
  | rtErr m =>
    rw [hab (by intro hh; exact ResT.noConfusion hh)]
    rfl
  | panicked m =>
    rw [hab (by intro hh; exact ResT.noConfusion hh)]
    rfl
  | fuelOut => exact absurd rfl hne

theorem refines_evaluate_values_loop {f g : EvalFn} (h : Refines f g) :
    ∀ (l : List Value) (acc : Value) (env : Nat) (st : Store),
    ResLe (evaluate_values_loop f l acc env st) (evaluate_values_loop g l acc env st) := by
  intro l
  induction l with
  | nil => intro acc env st; exact ResLe_refl _
  | cons v rest ih =>
    intro acc env st
    show ResLe ((f v env st).andThen _) ((g v env st).andThen _)
    exact ResLe_andThen (h v env st) fun r st' => ih r env st'

theorem refines_evaluate_values {f g : EvalFn} (h : Refines f g) (l : List Value) (env : Nat)
    (st : Store) : ResLe (evaluate_values f l env st) (evaluate_values g l env st) :=
  refines_evaluate_values_loop h l Value.null env st

mutual
theorem refines_quote_value {f g : EvalFn} (h : Refines f g) :
    ∀ (v : Value) (quasi : Bool) (env : Nat) (st : Store),
    ResLe (quote_value f v quasi env st) (quote_value g v quasi env st)
  | .Symbol s, _, _, _ => ResLe_refl _
  | .Integer n, _, _, _ => ResLe_refl _
  | .Boolean b, _, _, _ => ResLe_refl _
  | .String s, _, _, _ => ResLe_refl _
  | .Procedure p, _, _, _ => ResLe_refl _
  | .Macro a b, _, _, _ => ResLe_refl _
  | .CustomType t i, _, _, _ => ResLe_refl _
  | .List vec, quasi, env, st => by
    show ResLe
      (if quasi && unquote_form vec then unquote_arm f vec env st
       else (quote_value_list f vec quasi env st).andThen fun new_vec st' =>
         .ok (.List new_vec) st')
      (if quasi && unquote_form vec then unquote_arm g vec env st
       else (quote_value_list g vec quasi env st).andThen fun new_vec st' =>
         .ok (.List new_vec) st')
    by_cases hq : quasi && unquote_form vec
    · rw [if_pos hq, if_pos hq]
      show ResLe (unquote_arm f vec env st) (unquote_arm g vec env st)
      match vec with
      | [y, x] => exact h x env st
      | [] => exact ResLe_refl _
      | [y] => exact ResLe_refl _
      | y :: x :: z :: rest => exact ResLe_refl _
    · rw [if_neg hq, if_neg hq]
      exact ResLe_andThen (refines_quote_value_list h vec quasi env st) fun _ _ => ResLe_refl _

theorem refines_quote_value_list {f g : EvalFn} (h : Refines f g) :
    ∀ (vs : List Value) (quasi : Bool) (env : Nat) (st : Store),
    ResLe (quote_value_list f vs quasi env st) (quote_value_list g vs quasi env st)
  | [], _, _, _ => ResLe_refl _
  | v :: rest, quasi, env, st => by
    show ResLe ((quote_value f v quasi env st).andThen _)
      ((quote_value g v quasi env st).andThen _)
    refine ResLe_andThen (refines_quote_value h v quasi env st) fun v' st' => ?_
    exact ResLe_andThen (refines_quote_value_list h rest quasi env st') fun _ _ => ResLe_refl _
end

theorem refines_expand_macro_apply {f g : EvalFn} (h : Refines f g) (names : List String)
    (body args : List Value) (env : Nat) (st : Store) :
    ResLe (expand_macro_apply f names body args env st)
      (expand_macro_apply g names body args env st) :=
  refines_evaluate_values h _ env st

theorem refines_define_args {f g : EvalFn} (h : Refines f g) :
    ∀ (pairs : List (String × Value)) (callerEnv procEnv : Nat) (st : Store),
    ResLe (define_args f pairs callerEnv procEnv st) (define_args g pairs callerEnv procEnv st) := by
  intro pairs
  induction pairs with
  | nil => intro callerEnv procEnv st; exact ResLe_refl _
  | cons p rest ih =>
    intro callerEnv procEnv st
    obtain ⟨name, arg⟩ := p
    show ResLe ((f arg callerEnv st).andThen _) ((g arg callerEnv st).andThen _)
    exact ResLe_andThen (h arg callerEnv st) fun val st' => ih callerEnv procEnv _

theorem refines_scheme_call {f g : EvalFn} (h : Refines f g) (pairs : List (String × Value))
    (body : List Value) (func_env env : Nat) (st : Store) :
    ResLe (scheme_call f pairs body func_env env st) (scheme_call g pairs body func_env env st) := by
  show ResLe ((define_args f pairs env st.length (new_child st func_env)).andThen _)
    ((define_args g pairs env st.length (new_child st func_env)).andThen _)
  refine ResLe_andThen (refines_define_args h pairs env st.length (new_child st func_env))
    fun _ st₂ => ?_
  exact refines_evaluate_values h body st₂.length (new_child st₂ st.length)

theorem refines_sum_args {f g : EvalFn} (h : Refines f g) :
    ∀ (args : List Value) (acc : Int) (env : Nat) (st : Store),
    ResLe (sum_args f args acc env st) (sum_args g args acc env st) := by
  intro args
  induction args with
  | nil => intro acc env st; exact ResLe_refl _
  | cons n rest ih =>
    intro acc env st
    show ResLe ((f n env st).andThen _) ((g n env st).andThen _)
    refine ResLe_andThen (h n env st) fun v st' => ?_
    cases v with
    | Integer x =>
      show ResLe
        (if inI64 (acc + x) = true then sum_args f rest (acc + x) env st'
         else .panicked "attempt to add with overflow")
        (if inI64 (acc + x) = true then sum_args g rest (acc + x) env st'
         else .panicked "attempt to add with overflow")
      by_cases hin : inI64 (acc + x) = true
      · rw [if_pos hin, if_pos hin]
        exact ih (acc + x) env st'
      · rw [if_neg hin, if_neg hin]
        exact ResLe_refl _
    | Symbol s => exact ResLe_refl _
    | Boolean b => exact ResLe_refl _
    | String s => exact ResLe_refl _
    | List l => exact ResLe_refl _
    | Procedure p => exact ResLe_refl _
    | Macro a b => exact ResLe_refl _
    | CustomType a b => exact ResLe_refl _

theorem refines_product_args {f g : EvalFn} (h : Refines f g) :
    ∀ (args : List Value) (acc : Int) (env : Nat) (st : Store),
    ResLe (product_args f args acc env st) (product_args g args acc env st) := by
  intro args
  induction args with
  | nil => intro acc env st; exact ResLe_refl _
  | cons n rest ih =>
    intro acc env st
    show ResLe ((f n env st).andThen _) ((g n env st).andThen _)
    refine ResLe_andThen (h n env st) fun v st' => ?_
    cases v with
    | Integer x =>
      show ResLe
        (if inI64 (acc * x) = true then product_args f rest (acc * x) env st'
         else .panicked "attempt to multiply with overflow")
        (if inI64 (acc * x) = true then product_args g rest (acc * x) env st'
         else .panicked "attempt to multiply with overflow")
      by_cases hin : inI64 (acc * x) = true
      · rw [if_pos hin, if_pos hin]
        exact ih (acc * x) env st'
      · rw [if_neg hin, if_neg hin]
        exact ResLe_refl _
    | Symbol s => exact ResLe_refl _
    | Boolean b => exact ResLe_refl _
    | String s => exact ResLe_refl _
    | List l => exact ResLe_refl _
    | Procedure p => exact ResLe_refl _
    | Macro a b => exact ResLe_refl _
    | CustomType a b => exact ResLe_refl _

theorem refines_and_loop {f g : EvalFn} (h : Refines f g) :
    ∀ (args : List Value) (res : Value) (env : Nat) (st : Store),
    ResLe (and_loop f args res env st) (and_loop g args res env st) := by
  intro args
  induction args with
  | nil => intro res env st; exact ResLe_refl _
  | cons n rest ih =>
    intro res env st
    show ResLe ((f n env st).andThen _) ((g n env st).andThen _)
    refine ResLe_andThen (h n env st) fun v st' => ?_
    cases v with
    | Boolean b => cases b with
      | false => exact ResLe_refl _
      | true => exact ih _ env st'
    | Symbol s => exact ih _ env st'
    | Integer x => exact ih _ env st'
    | String s => exact ih _ env st'
    | List l => exact ih _ env st'
    | Procedure p => exact ih _ env st'
    | Macro a b => exact ih _ env st'
    | CustomType a b => exact ih _ env st'

theorem refines_or_loop {f g : EvalFn} (h : Refines f g) :
    ∀ (args : List Value) (env : Nat) (st : Store),
    ResLe (or_loop f args env st) (or_loop g args env st) := by
  intro args
  induction args with
  | nil => intro env st; exact ResLe_refl _
  | cons n rest ih =>
    intro env st
    show ResLe ((f n env st).andThen _) ((g n env st).andThen _)
    refine ResLe_andThen (h n env st) fun v st' => ?_
    cases v with
    | Boolean b => cases b with
      | false => exact ih env st'
      | true => exact ResLe_refl _
    | Symbol s => exact ResLe_refl _
    | Integer x => exact ResLe_refl _
    | String s => exact ResLe_refl _
    | List l => exact ResLe_refl _
    | Procedure p => exact ResLe_refl _
    | Macro a b => exact ResLe_refl _
    | CustomType a b => exact ResLe_refl _

theorem refines_eval_args {f g : EvalFn} (h : Refines f g) :
    ∀ (args : List Value) (env : Nat) (st : Store),
    ResLe (eval_args f args env st) (eval_args g args env st) := by
  intro args
  induction args with
  | nil => intro env st; exact ResLe_refl _
  | cons n rest ih =>
    intro env st
    show ResLe ((f n env st).andThen _) ((g n env st).andThen _)
    refine ResLe_andThen (h n env st) fun v st' => ?_
    exact ResLe_andThen (ih env st') fun _ _ => ResLe_refl _

theorem refines_let_bind_entries {f g : EvalFn} (h : Refines f g) (args : List Value) :
    ∀ (entries : List Value) (env letEnv : Nat) (st : Store),
    ResLe (let_bind_entries f args entries env letEnv st)
      (let_bind_entries g args entries env letEnv st) := by
  intro entries
  induction entries with
  | nil => intro env letEnv st; exact ResLe_refl _
  | cons e rest ih =>
    intro env letEnv st
    cases e with
    | List entry =>
      show ResLe (if entry.length ≠ 2 then _ else _) (if entry.length ≠ 2 then _ else _)
      by_cases hl : entry.length ≠ 2
      · rw [if_pos hl, if_pos hl]
        exact ResLe_refl _
      · rw [if_neg hl, if_neg hl]
        rcases entry with _ | ⟨e0, _ | ⟨e1, _ | ⟨e2, r⟩⟩⟩
        · exact ResLe_refl _
        · cases e0 <;> exact ResLe_refl _
        · cases e0 with
          | Symbol name =>
            show ResLe ((f e1 env st).andThen _) ((g e1 env st).andThen _)
            exact ResLe_andThen (h e1 env st) fun val st' => ih env letEnv _
          | Integer x => exact ResLe_refl _
          | Boolean b => exact ResLe_refl _
          | String s => exact ResLe_refl _
          | List l => exact ResLe_refl _
          | Procedure p => exact ResLe_refl _
          | Macro a b => exact ResLe_refl _
          | CustomType a b => exact ResLe_refl _
        · cases e0 <;> exact ResLe_refl _
    | Symbol s => exact ResLe_refl _
    | Integer x => exact ResLe_refl _
    | Boolean b => exact ResLe_refl _
    | String s => exact ResLe_refl _
    | Procedure p => exact ResLe_refl _
    | Macro a b => exact ResLe_refl _
    | CustomType a b => exact ResLe_refl _

theorem refines_native_define {f g : EvalFn} (h : Refines f g) (args : List Value) (env : Nat)
    (st : Store) : ResLe (native_define f args env st) (native_define g args env st) := by
  rcases args with _ | ⟨a0, _ | ⟨a1, rest⟩⟩
  · exact ResLe_refl _
  · exact ResLe_refl _
  · cases a0 with
    | Symbol name =>
      show ResLe ((f a1 env st).andThen _) ((g a1 env st).andThen _)
      exact ResLe_andThen (h a1 env st) fun val st' => ResLe_refl _
    | Integer x => exact ResLe_refl _
    | Boolean b => exact ResLe_refl _
    | String s => exact ResLe_refl _
    | List l => exact ResLe_refl _
    | Procedure p => exact ResLe_refl _
    | Macro a b => exact ResLe_refl _
    | CustomType a b => exact ResLe_refl _

theorem refines_native_begin {f g : EvalFn} (h : Refines f g) (args : List Value) (env : Nat)
    (st : Store) : ResLe (native_begin f args env st) (native_begin g args env st) := by
  show ResLe (if args.length < 1 then _ else evaluate_values f args env st)
    (if args.length < 1 then _ else evaluate_values g args env st)
  by_cases hl : args.length < 1
  · rw [if_pos hl, if_pos hl]
    exact ResLe_refl _
  · rw [if_neg hl, if_neg hl]
    exact refines_evaluate_values h args env st

theorem refines_native_let {f g : EvalFn} (h : Refines f g) (args : List Value) (env : Nat)
    (st : Store) : ResLe (native_let f args env st) (native_let g args env st) := by
  rcases args with _ | ⟨a0, _ | ⟨a1, rest⟩⟩
  · exact ResLe_refl _
  · exact ResLe_refl _
  · cases a0 with
    | List list =>
      show ResLe ((let_bind_entries f _ list env st.length (new_child st env)).andThen _)
        ((let_bind_entries g _ list env st.length (new_child st env)).andThen _)
      refine ResLe_andThen (refines_let_bind_entries h _ list env st.length (new_child st env))
        fun _ st₂ => ?_
      exact refines_evaluate_values h _ st₂.length (new_child st₂ st.length)
    | Symbol s => exact ResLe_refl _
    | Integer x => exact ResLe_refl _
    | Boolean b => exact ResLe_refl _
    | String s => exact ResLe_refl _
    | Procedure p => exact ResLe_refl _
    | Macro a b => exact ResLe_refl _
    | CustomType a b => exact ResLe_refl _

theorem refines_native_set {f g : EvalFn} (h : Refines f g) (args : List Value) (env : Nat)
    (st : Store) : ResLe (native_set f args env st) (native_set g args env st) := by
  rcases args with _ | ⟨a0, _ | ⟨a1, _ | ⟨a2, rest⟩⟩⟩
  · exact ResLe_refl _
  · cases a0 <;> exact ResLe_refl _
  · cases a0 with
    | Symbol name =>
      show ResLe ((f a1 env st).andThen _) ((g a1 env st).andThen _)
      exact ResLe_andThen (h a1 env st) fun val st' => ResLe_refl _
    | Integer x => exact ResLe_refl _
    | Boolean b => exact ResLe_refl _
    | String s => exact ResLe_refl _
    | List l => exact ResLe_refl _
    | Procedure p => exact ResLe_refl _
    | Macro a b => exact ResLe_refl _
    | CustomType a b => exact ResLe_refl _
  · cases a0 <;> exact ResLe_refl _

theorem refines_native_if {f g : EvalFn} (h : Refines f g) (args : List Value) (env : Nat)
    (st : Store) : ResLe (native_if f args env st) (native_if g args env st) := by
  rcases args with _ | ⟨c, _ | ⟨t, _ | ⟨e, _ | ⟨x, rest⟩⟩⟩⟩
  · exact ResLe_refl _
  · exact ResLe_refl _
  · exact ResLe_refl _
  · show ResLe ((f c env st).andThen _) ((g c env st).andThen _)
    refine ResLe_andThen (h c env st) fun v st' => ?_
    cases v with
    | Boolean b => cases b with
      | false => exact h e env st'
      | true => exact h t env st'
    | Symbol s => exact h t env st'
    | Integer x => exact h t env st'
    | String s => exact h t env st'
    | List l => exact h t env st'
    | Procedure p => exact h t env st'
    | Macro a b => exact h t env st'
    | CustomType a b => exact h t env st'
  · exact ResLe_refl _

theorem refines_native_plus {f g : EvalFn} (h : Refines f g) (args : List Value) (env : Nat)
    (st : Store) : ResLe (native_plus f args env st) (native_plus g args env st) := by
  show ResLe (if args.length < 2 then _ else (sum_args f args 0 env st).andThen _)
    (if args.length < 2 then _ else (sum_args g args 0 env st).andThen _)
  by_cases hl : args.length < 2
  · rw [if_pos hl, if_pos hl]
    exact ResLe_refl _
  · rw [if_neg hl, if_neg hl]
    exact ResLe_andThen (refines_sum_args h args 0 env st) fun _ _ => ResLe_refl _

theorem refines_native_multiply {f g : EvalFn} (h : Refines f g) (args : List Value) (env : Nat)
    (st : Store) : ResLe (native_multiply f args env st) (native_multiply g args env st) := by
  show ResLe (if args.length < 2 then _ else (product_args f args 1 env st).andThen _)
    (if args.length < 2 then _ else (product_args g args 1 env st).andThen _)
  by_cases hl : args.length < 2
  · rw [if_pos hl, if_pos hl]
    exact ResLe_refl _
  · rw [if_neg hl, if_neg hl]
    exact ResLe_andThen (refines_product_args h args 1 env st) fun _ _ => ResLe_refl _

theorem refines_native_minus {f g : EvalFn} (h : Refines f g) (args : List Value) (env : Nat)
    (st : Store) : ResLe (native_minus f args env st) (native_minus g args env st) := by
  rcases args with _ | ⟨a, _ | ⟨b, _ | ⟨c, rest⟩⟩⟩
  · exact ResLe_refl _
  · exact ResLe_refl _
  · show ResLe ((f a env st).andThen _) ((g a env st).andThen _)
    refine ResLe_andThen (h a env st) fun l st₁ => ?_
    show ResLe ((f b env st₁).andThen _) ((g b env st₁).andThen _)
    exact ResLe_andThen (h b env st₁) fun r st₂ => ResLe_refl _
  · exact ResLe_refl _

theorem refines_native_divide {f g : EvalFn} (h : Refines f g) (args : List Value) (env : Nat)
    (st : Store) : ResLe (native_divide f args env st) (native_divide g args env st) := by
  rcases args with _ | ⟨a, _ | ⟨b, _ | ⟨c, rest⟩⟩⟩
  · exact ResLe_refl _
  · exact ResLe_refl _
  · show ResLe ((f a env st).andThen _) ((g a env st).andThen _)
    refine ResLe_andThen (h a env st) fun l st₁ => ?_
    show ResLe ((f b env st₁).andThen _) ((g b env st₁).andThen _)
    exact ResLe_andThen (h b env st₁) fun r st₂ => ResLe_refl _
  · exact ResLe_refl _

theorem refines_native_lessthan {f g : EvalFn} (h : Refines f g) (args : List Value) (env : Nat)
    (st : Store) : ResLe (native_lessthan f args env st) (native_lessthan g args env st) := by
  rcases args with _ | ⟨a, _ | ⟨b, _ | ⟨c, rest⟩⟩⟩
  · exact ResLe_refl _
  · exact ResLe_refl _
  · show ResLe ((f a env st).andThen _) ((g a env st).andThen _)
    refine ResLe_andThen (h a env st) fun l st₁ => ?_
    show ResLe ((f b env st₁).andThen _) ((g b env st₁).andThen _)
    exact ResLe_andThen (h b env st₁) fun r st₂ => ResLe_refl _
  · exact ResLe_refl _

theorem refines_native_greaterthan {f g : EvalFn} (h : Refines f g) (args : List Value)
    (env : Nat) (st : Store) :
    ResLe (native_greaterthan f args env st) (native_greaterthan g args env st) := by
  rcases args with _ | ⟨a, _ | ⟨b, _ | ⟨c, rest⟩⟩⟩
  · exact ResLe_refl _
  · exact ResLe_refl _
  · show ResLe ((f a env st).andThen _) ((g a env st).andThen _)
    refine ResLe_andThen (h a env st) fun l st₁ => ?_
    show ResLe ((f b env st₁).andThen _) ((g b env st₁).andThen _)
    exact ResLe_andThen (h b env st₁) fun r st₂ => ResLe_refl _
  · exact ResLe_refl _

theorem refines_native_equal {f g : EvalFn} (h : Refines f g) (args : List Value) (env : Nat)
    (st : Store) : ResLe (native_equal f args env st) (native_equal g args env st) := by
  rcases args with _ | ⟨a, _ | ⟨b, _ | ⟨c, rest⟩⟩⟩
  · exact ResLe_refl _
  · exact ResLe_refl _
  · show ResLe ((f a env st).andThen _) ((g a env st).andThen _)
    refine ResLe_andThen (h a env st) fun l st₁ => ?_
    show ResLe ((f b env st₁).andThen _) ((g b env st₁).andThen _)
    exact ResLe_andThen (h b env st₁) fun r st₂ => ResLe_refl _
  · exact ResLe_refl _

theorem refines_native_null {f g : EvalFn} (h : Refines f g) (args : List Value) (env : Nat)
    (st : Store) : ResLe (native_null f args env st) (native_null g args env st) := by
  rcases args with _ | ⟨a, _ | ⟨b, rest⟩⟩
  · exact ResLe_refl _
  · show ResLe ((f a env st).andThen _) ((g a env st).andThen _)
    exact ResLe_andThen (h a env st) fun v st' => ResLe_refl _
  · exact ResLe_refl _

theorem refines_native_list {f g : EvalFn} (h : Refines f g) (args : List Value) (env : Nat)
    (st : Store) : ResLe (native_list f args env st) (native_list g args env st) := by
  show ResLe ((eval_args f args env st).andThen _) ((eval_args g args env st).andThen _)
  exact ResLe_andThen (refines_eval_args h args env st) fun _ _ => ResLe_refl _

theorem refines_native_car {f g : EvalFn} (h : Refines f g) (args : List Value) (env : Nat)
    (st : Store) : ResLe (native_car f args env st) (native_car g args env st) := by
  rcases args with _ | ⟨a, _ | ⟨b, rest⟩⟩
  · exact ResLe_refl _
  · show ResLe ((f a env st).andThen _) ((g a env st).andThen _)
    exact ResLe_andThen (h a env st) fun v st' => ResLe_refl _
  · exact ResLe_refl _

theorem refines_native_cdr {f g : EvalFn} (h : Refines f g) (args : List Value) (env : Nat)
    (st : Store) : ResLe (native_cdr f args env st) (native_cdr g args env st) := by
  rcases args with _ | ⟨a, _ | ⟨b, rest⟩⟩
  · exact ResLe_refl _
  · show ResLe ((f a env st).andThen _) ((g a env st).andThen _)
    exact ResLe_andThen (h a env st) fun v st' => ResLe_refl _
  · exact ResLe_refl _

theorem refines_native_cons {f g : EvalFn} (h : Refines f g) (args : List Value) (env : Nat)
    (st : Store) : ResLe (native_cons f args env st) (native_cons g args env st) := by
  rcases args with _ | ⟨a, _ | ⟨b, _ | ⟨c, rest⟩⟩⟩
  · exact ResLe_refl _
  · exact ResLe_refl _
  · show ResLe ((f a env st).andThen _) ((g a env st).andThen _)
    refine ResLe_andThen (h a env st) fun l st₁ => ?_
    show ResLe ((f b env st₁).andThen _) ((g b env st₁).andThen _)
    exact ResLe_andThen (h b env st₁) fun r st₂ => ResLe_refl _
  · exact ResLe_refl _

theorem refines_native_append {f g : EvalFn} (h : Refines f g) (args : List Value) (env : Nat)
    (st : Store) : ResLe (native_append f args env st) (native_append g args env st) := by
  rcases args with _ | ⟨a, _ | ⟨b, _ | ⟨c, rest⟩⟩⟩
  · exact ResLe_refl _
  · exact ResLe_refl _
  · show ResLe ((f a env st).andThen _) ((g a env st).andThen _)
    refine ResLe_andThen (h a env st) fun l st₁ => ?_
    show ResLe ((f b env st₁).andThen _) ((g b env st₁).andThen _)
    exact ResLe_andThen (h b env st₁) fun r st₂ => ResLe_refl _
  · exact ResLe_refl _

theorem refines_native_quote {f g : EvalFn} (h : Refines f g) (args : List Value) (env : Nat)
    (st : Store) : ResLe (native_quote f args env st) (native_quote g args env st) := by
  rcases args with _ | ⟨a, _ | ⟨b, rest⟩⟩
  · exact ResLe_refl _
  · exact refines_quote_value h a false env st
  · exact ResLe_refl _

theorem refines_native_quasiquote {f g : EvalFn} (h : Refines f g) (args : List Value)
    (env : Nat) (st : Store) :
    ResLe (native_quasiquote f args env st) (native_quasiquote g args env st) := by
  rcases args with _ | ⟨a, _ | ⟨b, rest⟩⟩
  · exact ResLe_refl _
  · exact refines_quote_value h a true env st
  · exact ResLe_refl _

theorem refines_native_error {f g : EvalFn} (h : Refines f g) (args : List Value) (env : Nat)
    (st : Store) : ResLe (native_error f args env st) (native_error g args env st) := by
  rcases args with _ | ⟨a, _ | ⟨b, rest⟩⟩
  · exact ResLe_refl _
  · show ResLe ((f a env st).andThen _) ((g a env st).andThen _)
    exact ResLe_andThen (h a env st) fun v st' => ResLe_refl _
  · exact ResLe_refl _

theorem refines_native_apply {f g : EvalFn} (h : Refines f g) (args : List Value) (env : Nat)
    (st : Store) : ResLe (native_apply f args env st) (native_apply g args env st) := by
  rcases args with _ | ⟨a, _ | ⟨b, _ | ⟨c, rest⟩⟩⟩
  · exact ResLe_refl _
  · exact ResLe_refl _
  · show ResLe ((f a env st).andThen _) ((g a env st).andThen _)
    refine ResLe_andThen (h a env st) fun fv st₁ => ?_
    cases fv with
    | Procedure func =>
      show ResLe ((f b env st₁).andThen _) ((g b env st₁).andThen _)
      refine ResLe_andThen (h b env st₁) fun lv st₂ => ?_
      cases lv with
      | List elements => exact h (.List (.Procedure func :: elements)) env st₂
      | Symbol s => exact ResLe_refl _
      | Integer x => exact ResLe_refl _
      | Boolean c1 => exact ResLe_refl _
      | String s => exact ResLe_refl _
      | Procedure p => exact ResLe_refl _
      | Macro m1 m2 => exact ResLe_refl _
      | CustomType c1 c2 => exact ResLe_refl _
    | Symbol s => exact ResLe_refl _
    | Integer x => exact ResLe_refl _
    | Boolean c1 => exact ResLe_refl _
    | String s => exact ResLe_refl _
    | List l => exact ResLe_refl _
    | Macro m1 m2 => exact ResLe_refl _
    | CustomType c1 c2 => exact ResLe_refl _
  · exact ResLe_refl _

theorem refines_native_eval {f g : EvalFn} (h : Refines f g) (args : List Value) (env : Nat)
    (st : Store) : ResLe (native_eval f args env st) (native_eval g args env st) := by
  rcases args with _ | ⟨a, _ | ⟨b, rest⟩⟩
  · exact ResLe_refl _
  · show ResLe ((f a env st).andThen _) ((g a env st).andThen _)
    refine ResLe_andThen (h a env st) fun res st' => ?_
    exact h res (get_root st'.length st' env) st'
  · exact ResLe_refl _

theorem refines_native_output (name : String) {f g : EvalFn} (h : Refines f g)
    (args : List Value) (env : Nat) (st : Store) :
    ResLe (native_output name f args env st) (native_output name g args env st) := by
  rcases args with _ | ⟨a, _ | ⟨b, rest⟩⟩
  · exact ResLe_refl _
  · show ResLe ((f a env st).andThen _) ((g a env st).andThen _)
    exact ResLe_andThen (h a env st) fun v st' => ResLe_refl _
  · exact ResLe_refl _

theorem refines_apply_native {f g : EvalFn} (h : Refines f g) (nf : NativeFn)
    (args : List Value) (env : Nat) (st : Store) :
    ResLe (apply_native f nf args env st) (apply_native g nf args env st) := by
  cases nf with
  | define => exact refines_native_define h args env st
  | defineSyntaxRule => exact ResLe_refl _
  | begin => exact refines_native_begin h args env st
  | letN => exact refines_native_let h args env st
  | setBang => exact refines_native_set h args env st
  | lambda => exact ResLe_refl _
  | ifN => exact refines_native_if h args env st
  | plus => exact refines_native_plus h args env st
  | minus => exact refines_native_minus h args env st
  | multiply => exact refines_native_multiply h args env st
  | divide => exact refines_native_divide h args env st
  | lessthan => exact refines_native_lessthan h args env st
  | greaterthan => exact refines_native_greaterthan h args env st
  | equal => exact refines_native_equal h args env st
  | andN => exact refines_and_loop h args (.Boolean true) env st
  | orN => exact refines_or_loop h args env st
  | isNull => exact refines_native_null h args env st
  | listN => exact refines_native_list h args env st
  | car => exact refines_native_car h args env st
  | cdr => exact refines_native_cdr h args env st
  | cons => exact refines_native_cons h args env st
  | append => exact refines_native_append h args env st
  | quote => exact refines_native_quote h args env st
  | quasiquote => exact refines_native_quasiquote h args env st
  | error => exact refines_native_error h args env st
  | apply => exact refines_native_apply h args env st
  | eval => exact refines_native_eval h args env st
  | write => exact refines_native_output "write" h args env st
  | display => exact refines_native_output "display" h args env st
  | displayln => exact refines_native_output "displayln" h args env st
  | print => exact refines_native_output "print" h args env st
  | newline => exact ResLe_refl _

theorem refines_apply_function {f g : EvalFn} (h : Refines f g) (func : Function)
    (args : List Value) (env : Nat) (st : Store) :
    ResLe (apply_function f func args env st) (apply_function g func args env st) := by
  cases func with
  | Native nf => exact refines_apply_native h nf args env st
  | Scheme names body cenv =>
    show ResLe (if names.length ≠ args.length then _ else scheme_call f _ body cenv env st)
      (if names.length ≠ args.length then _ else scheme_call g _ body cenv env st)
    by_cases hl : names.length ≠ args.length
    · rw [if_pos hl, if_pos hl]
      exact ResLe_refl _
    · rw [if_neg hl, if_neg hl]
      exact refines_scheme_call h (names.zip args) body cenv env st

theorem refines_evaluate_expression {f g : EvalFn} (h : Refines f g) (values : List Value)
    (env : Nat) (st : Store) :
    ResLe (evaluate_expression f values env st) (evaluate_expression g values env st) := by
  cases values with
  | nil => exact ResLe_refl _
  | cons first rest =>
    show ResLe ((f first env st).andThen _) ((g first env st).andThen _)
    refine ResLe_andThen (h first env st) fun fv st' => ?_
    cases fv with
    | Procedure func => exact refines_apply_function h func rest env st'
    | Macro a b => exact refines_expand_macro_apply h a b rest env st'
    | Symbol s => exact ResLe_refl _
    | Integer x => exact ResLe_refl _
    | Boolean c1 => exact ResLe_refl _
    | String s => exact ResLe_refl _
    | List l => exact ResLe_refl _
    | CustomType c1 c2 => exact ResLe_refl _

theorem refines_evaluate_value_step {f g : EvalFn} (h : Refines f g) (v : Value) (env : Nat)
    (st : Store) :
    ResLe (evaluate_value_step f v env st) (evaluate_value_step g v env st) := by
  cases v with
  | Symbol s => exact ResLe_refl _
  | Integer n => exact ResLe_refl _
  | Boolean b => exact ResLe_refl _
  | String s => exact ResLe_refl _
  | Procedure p => exact ResLe_refl _
  | Macro a b => exact ResLe_refl _
  | CustomType a b => exact ResLe_refl _
  | List vec =>
    show ResLe (if vec.length > 0 then evaluate_expression f vec env st else _)
      (if vec.length > 0 then evaluate_expression g vec env st else _)
    by_cases hl : vec.length > 0
    · rw [if_pos hl, if_pos hl]
      exact refines_evaluate_expression h vec env st
    · rw [if_neg hl, if_neg hl]
      exact ResLe_refl _

theorem evaluate_value_mono :
    ∀ (fuel fuel' : Nat), fuel ≤ fuel' →
    Refines (evaluate_value fuel) (evaluate_value fuel') := by
  intro fuel
  induction fuel with
  | zero =>
    intro fuel' _ v env st hne
    exact absurd rfl hne
  | succ n ih =>
    intro fuel' hle v env st
    cases fuel' with
    | zero => omega
    | succ m =>
      show ResLe (evaluate_value_step (evaluate_value n) v env st)
        (evaluate_value_step (evaluate_value m) v env st)
      exact refines_evaluate_value_step (ih m (by omega)) v env st

theorem machine_steps_append (F : Nat) :
    ∀ (n m : Nat) (s : MState),
    machine_steps F (n + m) s =
      match machine_steps F n s with
      | .running s' => machine_steps F m s'
      | .halted r => .halted r := by
  intro n
  induction n with
  | zero =>
    intro m s
    rw [Nat.zero_add]
    rfl
  | succ j ih =>
    intro m s
    have heq : j + 1 + m = (j + m) + 1 := by omega
    rw [heq]
    cases hstep : machine_step F s with
    | running s' =>
      have h1 : machine_steps F ((j + m) + 1) s = machine_steps F (j + m) s' := by
        show (match machine_step F s with
          | .running s2 => machine_steps F (j + m) s2
          | .halted r => .halted r) = _
        rw [hstep]
      have h2 : machine_steps F (j + 1) s = machine_steps F j s' := by
        show (match machine_step F s with
          | .running s2 => machine_steps F j s2
          | .halted r => .halted r) = _
        rw [hstep]
      rw [h1, h2, ih m s']
    | halted r =>
      have h1 : machine_steps F ((j + m) + 1) s = .halted r := by
        show (match machine_step F s with
          | .running s2 => machine_steps F (j + m) s2
          | .halted r => .halted r) = _
        rw [hstep]
      have h2 : machine_steps F (j + 1) s = .halted r := by
        show (match machine_step F s with
          | .running s2 => machine_steps F j s2
          | .halted r => .halted r) = _
        rw [hstep]
      rw [h1, h2]

theorem matches_of_steps {F : Nat} {r : Res} {k : List Frame} {s s' : MState}
    (hsteps : ∃ n, machine_steps F n s = .running s')
    (h : MACHINE_MATCHES F r s' k) : MACHINE_MATCHES F r s k := by
  obtain ⟨n, hn⟩ := hsteps
  cases r with
  | ok x st' =>
    obtain ⟨m, hm⟩ := h
    exact ⟨n + m, by rw [machine_steps_append, hn]; exact hm⟩
  | rtErr m =>
    obtain ⟨j, hj⟩ := h
    exact ⟨n + j, by rw [machine_steps_append, hn]; exact hj⟩
  | panicked m =>
    obtain ⟨j, hj⟩ := h
    exact ⟨n + j, by rw [machine_steps_append, hn]; exact hj⟩
  | fuelOut => exact h

theorem matches_step {F : Nat} {r : Res} {k : List Frame} {s s' : MState}
    (hstep : machine_step F s = .running s')
    (h : MACHINE_MATCHES F r s' k) : MACHINE_MATCHES F r s k :=
  matches_of_steps
    ⟨1, by
      show (match machine_step F s with
        | .running s2 => machine_steps F 0 s2
        | .halted r => .halted r) = _
      rw [hstep]
      rfl⟩ h

theorem matches_halt_rtErr {F : Nat} {k : List Frame} {s : MState} {m : String}
    (hstep : machine_step F s = .halted (.rtErr m)) :
    MACHINE_MATCHES F (.rtErr m) s k :=
  ⟨1, by
    show (match machine_step F s with
      | .running s2 => machine_steps F 0 s2
      | .halted r => .halted r) = _
    rw [hstep]⟩

theorem matches_halt_panicked {F : Nat} {k : List Frame} {s : MState} {m : String}
    (hstep : machine_step F s = .halted (.panicked m)) :
    MACHINE_MATCHES F (.panicked m) s k :=
  ⟨1, by
    show (match machine_step F s with
      | .running s2 => machine_steps F 0 s2
      | .halted r => .halted r) = _
    rw [hstep]⟩

theorem matches_bind {F : Nat} {r : Res} {cont : Value → Store → Res} {s : MState}
    {k₁ k₂ : List Frame}
    (h₁ : MACHINE_MATCHES F r s k₁)
    (h₂ : ∀ v st', r = .ok v st' → MACHINE_MATCHES F (cont v st') ⟨.valC v, st', k₁⟩ k₂) :
    MACHINE_MATCHES F (r.andThen cont) s k₂ := by
  cases r with
  | ok v st' => exact matches_of_steps h₁ (h₂ v st' rfl)
  | rtErr m => exact h₁
  | panicked m => exact h₁
  | fuelOut => exact h₁

theorem sim_seq {F : Nat} {f : EvalFn} (hf : SimOf F f) :
    ∀ (l : List Value) (env : Nat) (st : Store) (k : List Frame),
    MACHINE_MATCHES F (evaluate_values f l env st) (seq_start l env st k) k := by
  intro l
  induction l with
  | nil => intro env st k; exact ⟨0, rfl⟩
  | cons e rest ih =>
    intro env st k
    cases rest with
    | nil =>
      show MACHINE_MATCHES F (evaluate_values f [e] env st) ⟨.exprC e env, st, k⟩ k
      have heq : evaluate_values f [e] env st = f e env st := ResT.andThen_ok_right _
      rw [heq]
      exact hf e env st k
    | cons e2 rest2 =>
      show MACHINE_MATCHES F ((f e env st).andThen _)
        ⟨.exprC e env, st, .seqCont (e2 :: rest2) env :: k⟩ k
      refine matches_bind (hf e env st _) fun v st' _ => ?_
      have hl : evaluate_values_loop f (e2 :: rest2) v env st' =
          evaluate_values f (e2 :: rest2) env st' :=
        evaluate_values_loop_acc f (e2 :: rest2) v env st' (by simp)
      show MACHINE_MATCHES F (evaluate_values_loop f (e2 :: rest2) v env st')
        ⟨.valC v, st', .seqCont (e2 :: rest2) env :: k⟩ k
      rw [hl]
      refine matches_step (by rfl) ?_
      exact ih env st' k

theorem sim_bind_args {F : Nat} {f : EvalFn} (hf : SimOf F f) :
    ∀ (pairs : List (String × Value)) (body : List Value) (proc_env caller_env : Nat)
      (st : Store) (k : List Frame),
    MACHINE_MATCHES F
      ((define_args f pairs caller_env proc_env st).andThen fun _ st₂ =>
        evaluate_values f body st₂.length (new_child st₂ proc_env))
      (match pairs with
       | [] => seq_start body st.length (new_child st proc_env) k
       | (name, arg) :: rest =>
         ⟨.exprC arg caller_env, st, .bindCont name rest proc_env body caller_env :: k⟩)
      k := by
  intro pairs
  induction pairs with
  | nil =>
    intro body proc_env caller_env st k
    show MACHINE_MATCHES F (evaluate_values f body st.length (new_child st proc_env))
      (seq_start body st.length (new_child st proc_env) k) k
    exact sim_seq hf body st.length (new_child st proc_env) k
  | cons p rest ih =>
    intro body proc_env caller_env st k
    obtain ⟨name, arg⟩ := p
    show MACHINE_MATCHES F (((f arg caller_env st).andThen _).andThen _)
      ⟨.exprC arg caller_env, st, .bindCont name rest proc_env body caller_env :: k⟩ k
    rw [ResT.andThen_assoc]
    refine matches_bind (hf arg caller_env st _) fun val st' _ => ?_
    refine matches_step (by rfl) ?_
    exact ih body proc_env caller_env (envDefine st' proc_env name val) k

theorem sim_evaluate_value :
    ∀ (fuel F : Nat), fuel ≤ F → SimOf F (evaluate_value fuel) := by
  intro fuel
  induction fuel with
  | zero =>
    intro F _ v env st k
    show True
    trivial
  | succ n ih =>
    intro F hle v env st k
    have hsim : SimOf F (evaluate_value n) := ih F (by omega)
    show MACHINE_MATCHES F (evaluate_value_step (evaluate_value n) v env st)
      ⟨.exprC v env, st, k⟩ k
    cases v with
    | Integer x => exact matches_step (by rfl) ⟨0, rfl⟩
    | Boolean b => exact matches_step (by rfl) ⟨0, rfl⟩
    | String s => exact matches_step (by rfl) ⟨0, rfl⟩
    | Procedure p => exact matches_step (by rfl) ⟨0, rfl⟩
    | Macro a b => exact matches_step (by rfl) ⟨0, rfl⟩
    | CustomType a b => exact matches_step (by rfl) ⟨0, rfl⟩
    | Symbol s =>
      cases hget : envGet st.length st env s with
      | some val =>
        have htree : evaluate_value_step (evaluate_value n) (.Symbol s) env st = .ok val st := by
          show (match envGet st.length st env s with
            | some val => ResT.ok val st
            | none => .rtErr ("Identifier not found: " ++ debug_fmt (.Symbol s))) = _
          rw [hget]
        rw [htree]
        refine matches_step ?_ ⟨0, rfl⟩
        show (match envGet st.length st env s with
          | some val => MOut.running ⟨.valC val, st, k⟩
          | none => .halted (.rtErr ("Identifier not found: " ++ debug_fmt (.Symbol s)))) = _
        rw [hget]
      | none =>
        have htree : evaluate_value_step (evaluate_value n) (.Symbol s) env st =
            .rtErr ("Identifier not found: " ++ debug_fmt (.Symbol s)) := by
          show (match envGet st.length st env s with
            | some val => ResT.ok val st
            | none => .rtErr ("Identifier not found: " ++ debug_fmt (.Symbol s))) = _
          rw [hget]
        rw [htree]
        refine matches_halt_rtErr ?_
        show (match envGet st.length st env s with
          | some val => MOut.running ⟨.valC val, st, k⟩
          | none => .halted (.rtErr ("Identifier not found: " ++ debug_fmt (.Symbol s)))) = _
        rw [hget]
    | List vec =>
      cases vec with
      | nil => exact matches_step (by rfl) ⟨0, rfl⟩
      | cons first rest =>
        refine matches_step (by rfl) ?_
        have hE : evaluate_value_step (evaluate_value n) (.List (first :: rest)) env st
            = evaluate_expression (evaluate_value n) (first :: rest) env st := by
          show (if (first :: rest).length > 0
              then evaluate_expression (evaluate_value n) (first :: rest) env st
              else .ok Value.null st)
            = evaluate_expression (evaluate_value n) (first :: rest) env st
          rw [if_pos (by simp : (first :: rest).length > 0)]
        rw [hE, evaluate_expression]
        refine matches_bind (hsim first env st _) fun fv st' _ => ?_
        cases fv with
        | Symbol s2 => exact matches_halt_rtErr (by rfl)
        | Integer x => exact matches_halt_rtErr (by rfl)
        | Boolean b => exact matches_halt_rtErr (by rfl)
        | String s2 => exact matches_halt_rtErr (by rfl)
        | List l => exact matches_halt_rtErr (by rfl)
        | CustomType a b => exact matches_halt_rtErr (by rfl)
        | Macro names mbody =>
          refine matches_step (by rfl) ?_
          exact sim_seq hsim
            (expand_macro_substitute_values (make_substitutions (names.zip rest)) mbody)
            env st' k
        | Procedure func =>
          cases func with
          | Native nf =>
            have href : ResLe (apply_native (evaluate_value n) nf rest env st')
                (apply_native (evaluate_value F) nf rest env st') :=
              refines_apply_native (evaluate_value_mono n F (by omega)) nf rest env st'
            show MACHINE_MATCHES F (apply_native (evaluate_value n) nf rest env st')
              ⟨.valC (.Procedure (.Native nf)), st', .applyCont rest env :: k⟩ k
            cases hres : apply_native (evaluate_value n) nf rest env st' with
            | ok x st'' =>
              have hF : apply_native (evaluate_value F) nf rest env st' = .ok x st'' := by
                rw [href (by rw [hres]; exact ResT.ok_ne_fuelOut), hres]
              refine matches_step ?_ ⟨0, rfl⟩
              show (match apply_native (evaluate_value F) nf rest env st' with
                | ResT.ok x st2 => MOut.running ⟨.valC x, st2, k⟩
                | ResT.rtErr m => .halted (.rtErr m)
                | ResT.panicked m => .halted (.panicked m)
                | ResT.fuelOut => .halted .fuelOut) = _
              rw [hF]
            | rtErr m =>
              have hF : apply_native (evaluate_value F) nf rest env st' = .rtErr m := by
                rw [href (by rw [hres]; intro hh; exact ResT.noConfusion hh), hres]
              refine matches_halt_rtErr ?_
              show (match apply_native (evaluate_value F) nf rest env st' with
                | ResT.ok x st2 => MOut.running ⟨.valC x, st2, k⟩
                | ResT.rtErr m => .halted (.rtErr m)
                | ResT.panicked m => .halted (.panicked m)
                | ResT.fuelOut => .halted .fuelOut) = _
              rw [hF]
            | panicked m =>
              have hF : apply_native (evaluate_value F) nf rest env st' = .panicked m := by
                rw [href (by rw [hres]; intro hh; exact ResT.noConfusion hh), hres]
              refine matches_halt_panicked ?_
              show (match apply_native (evaluate_value F) nf rest env st' with
                | ResT.ok x st2 => MOut.running ⟨.valC x, st2, k⟩
                | ResT.rtErr m => .halted (.rtErr m)
                | ResT.panicked m => .halted (.panicked m)
                | ResT.fuelOut => .halted .fuelOut) = _
              rw [hF]
            | fuelOut =>
              show True
              trivial
          | Scheme names body cenv =>
            show MACHINE_MATCHES F
              (if names.length ≠ rest.length then ResT.rtErr (arity_error_msg names rest)
               else scheme_call (evaluate_value n) (names.zip rest) body cenv env st')
              ⟨.valC (.Procedure (.Scheme names body cenv)), st', .applyCont rest env :: k⟩ k
            by_cases harity : names.length ≠ rest.length
            · rw [if_pos harity]
              refine matches_halt_rtErr ?_
              show (if names.length ≠ rest.length
                  then MOut.halted (.rtErr (arity_error_msg names rest))
                  else .running (closure_enter (names.zip rest) body cenv env st' k)) = _
              rw [if_pos harity]
            · rw [if_neg harity]
              refine @matches_step F _ k _
                (closure_enter (names.zip rest) body cenv env st' k) ?_ ?_
              · show (if names.length ≠ rest.length
                    then MOut.halted (.rtErr (arity_error_msg names rest))
                    else .running (closure_enter (names.zip rest) body cenv env st' k)) = _
                rw [if_neg harity]
              · show MACHINE_MATCHES F
                  ((define_args (evaluate_value n) (names.zip rest) env st'.length
                      (new_child st' cenv)).andThen fun _ st₂ =>
                    evaluate_values (evaluate_value n) body st₂.length
                      (new_child st₂ st'.length))
                  (closure_enter (names.zip rest) body cenv env st' k) k
                exact sim_bind_args hsim (names.zip rest) body st'.length env
                  (new_child st' cenv) k

theorem machine_step_mono {F F' : Nat} (hle : F ≤ F') :
    ∀ (s : MState), machine_step F s ≠ .halted .fuelOut →
    machine_step F' s = machine_step F s := by
  intro s hne
  obtain ⟨ctrl, st, k⟩ := s
  cases ctrl with
  | exprC v env => rfl
  | valC v =>
    cases k with
    | nil => rfl
    | cons fr k' =>
      cases fr with
      | seqCont l env => rfl
      | bindCont name pending proc_env body caller_env => rfl
      | applyCont rest env =>
        cases v with
        | Symbol s2 => rfl
        | Integer x => rfl
        | Boolean b => rfl
        | String s2 => rfl
        | List l => rfl
        | Macro names mbody => rfl
        | CustomType a b => rfl
        | Procedure func =>
          cases func with
          | Scheme names body cenv => rfl
          | Native nf =>
            have href := refines_apply_native (evaluate_value_mono F F' hle) nf rest env st
            show (match apply_native (evaluate_value F') nf rest env st with
                | .ok x st' => MOut.running ⟨.valC x, st', k'⟩
                | .rtErr m => .halted (.rtErr m)
                | .panicked m => .halted (.panicked m)
                | .fuelOut => .halted .fuelOut)
              = (match apply_native (evaluate_value F) nf rest env st with
                | .ok x st' => MOut.running ⟨.valC x, st', k'⟩
                | .rtErr m => .halted (.rtErr m)
                | .panicked m => .halted (.panicked m)
                | .fuelOut => .halted .fuelOut)
            cases hres : apply_native (evaluate_value F) nf rest env st with
            | ok x st' => rw [href (by rw [hres]; exact ResT.ok_ne_fuelOut), hres]
            | rtErr m => rw [href (by rw [hres]; intro hh; exact ResT.noConfusion hh), hres]
            | panicked m =>
              rw [href (by rw [hres]; intro hh; exact ResT.noConfusion hh), hres]
            | fuelOut =>
              exfalso
              apply hne
              show (match apply_native (evaluate_value F) nf rest env st with
                | .ok x st' => MOut.running ⟨.valC x, st', k'⟩
                | .rtErr m => .halted (.rtErr m)
                | .panicked m => .halted (.panicked m)
                | .fuelOut => .halted .fuelOut) = .halted .fuelOut
              rw [hres]

theorem machine_steps_mono {F F' : Nat} (hle : F ≤ F') :
    ∀ (n : Nat) (s : MState) (r : Res), r ≠ .fuelOut →
    machine_steps F n s = .halted r → machine_steps F' n s = .halted r := by
  intro n
  induction n with
  | zero =>
    intro s r _ h
    exact absurd h (fun hh => MOut.noConfusion hh)
  | succ m ih =>
    intro s r hr h
    have h' : (match machine_step F s with
        | .running s' => machine_steps F m s'
        | .halted r' => MOut.halted r') = .halted r := h
    show (match machine_step F' s with
        | .running s' => machine_steps F' m s'
        | .halted r' => MOut.halted r') = .halted r
    cases hstep : machine_step F s with
    | running s' =>
      rw [hstep] at h'
      have hne : machine_step F s ≠ .halted .fuelOut := by
        rw [hstep]; intro hh; exact MOut.noConfusion hh
      rw [machine_step_mono hle s hne, hstep]
      exact ih s' r hr h'
    | halted r' =>
      rw [hstep] at h'
      injection h' with hrr
      subst hrr
      have hne : machine_step F s ≠ .halted .fuelOut := by
        rw [hstep]; intro hh; injection hh with h2; exact hr h2
      rw [machine_step_mono hle s hne, hstep]

theorem machine_run_mono {F F' : Nat} (hle : F ≤ F') (n : Nat) (s : MState)
    (h : machine_run F n s ≠ .fuelOut) : machine_run F' n s = machine_run F n s := by
  cases hsteps : machine_steps F n s with
  | running s' =>
    exfalso
    apply h
    show (match machine_steps F n s with
      | .halted r => r
      | .running _ => ResT.fuelOut) = .fuelOut
    rw [hsteps]
  | halted r =>
    have hr : machine_run F n s = r := by
      show (match machine_steps F n s with
        | .halted r => r
        | .running _ => ResT.fuelOut) = r
      rw [hsteps]
    have hrne : r ≠ .fuelOut := by rw [← hr]; exact h
    have hs' := machine_steps_mono hle n s r hrne hsteps
    rw [hr]
    show (match machine_steps F' n s with
      | .halted r => r
      | .running _ => ResT.fuelOut) = r
    rw [hs']

theorem machine_run_det (F : Nat) (n m : Nat) (s : MState)
    (hn : machine_run F n s ≠ .fuelOut) (hm : machine_run F m s ≠ .fuelOut) :
    machine_run F n s = machine_run F m s := by
  cases hsn : machine_steps F n s with
  | running s' =>
    exfalso
    apply hn
    show (match machine_steps F n s with
      | .halted r => r
      | .running _ => ResT.fuelOut) = .fuelOut
    rw [hsn]
  | halted r₁ =>
    cases hsm : machine_steps F m s with
    | running s' =>
      exfalso
      apply hm
      show (match machine_steps F m s with
        | .halted r => r
        | .running _ => ResT.fuelOut) = .fuelOut
      rw [hsm]
    | halted r₂ =>
      have h₁ : machine_run F n s = r₁ := by
        show (match machine_steps F n s with
          | .halted r => r
          | .running _ => ResT.fuelOut) = r₁
        rw [hsn]
      have h₂ : machine_run F m s = r₂ := by
        show (match machine_steps F m s with
          | .halted r => r
          | .running _ => ResT.fuelOut) = r₂
        rw [hsm]
      rw [h₁, h₂]
      rcases Nat.le_total n m with hle | hle
      · have habs : machine_steps F (n + (m - n)) s = .halted r₁ := by
          rw [machine_steps_append, hsn]
        rw [Nat.add_sub_cancel' hle, hsm] at habs
        injection habs with hh
        exact hh.symm
      · have habs : machine_steps F (m + (n - m)) s = .halted r₂ := by
          rw [machine_steps_append, hsm]
        rw [Nat.add_sub_cancel' hle, hsn] at habs
        injection habs with hh

theorem machine_realises_tree_result (fuel F : Nat) (hle : fuel ≤ F)
    (P : List Value) (r : Res) (hr : run_program fuel P = r) (hne : r ≠ .fuelOut) :
    ∃ m, machine_execute F m P = r := by
  have hmm : MACHINE_MATCHES F (evaluate_values (evaluate_value fuel) P 0 initialStore)
      (seq_start P 0 initialStore []) [] :=
    sim_seq (sim_evaluate_value fuel F hle) P 0 initialStore []
  have hrp : evaluate_values (evaluate_value fuel) P 0 initialStore = r := hr
  rw [hrp] at hmm
  cases r with
  | fuelOut => exact absurd rfl hne
  | ok x st' =>
    obtain ⟨m, hsteps⟩ := hmm
    refine ⟨m + 1, ?_⟩
    have hs1 : machine_steps F (m + 1) (seq_start P 0 initialStore []) =
        .halted (.ok x st') := by
      rw [machine_steps_append F m 1 _, hsteps]
      rfl
    show (match machine_steps F (m + 1) (seq_start P 0 initialStore []) with
      | .halted r => r
      | .running _ => ResT.fuelOut) = .ok x st'
    rw [hs1]
  | rtErr msg =>
    obtain ⟨m, hsteps⟩ := hmm
    refine ⟨m, ?_⟩
    show (match machine_steps F m (seq_start P 0 initialStore []) with
      | .halted r => r
      | .running _ => ResT.fuelOut) = .rtErr msg
    rw [hsteps]
  | panicked msg =>
    obtain ⟨m, hsteps⟩ := hmm
    refine ⟨m, ?_⟩
    show (match machine_steps F m (seq_start P 0 initialStore []) with
      | .halted r => r
      | .running _ => ResT.fuelOut) = .panicked msg
    rw [hsteps]

/-- C1: For every program, the tree-walking evaluator and the
continuation-passing trampoline produce identical outcomes: any trampoline
run that terminates within its budgets returns exactly the tree walk's
result (same success value and store, same error message, same panic), and
the tree walk's result is always reproduced by some trampoline step
budget.  The fuel/step-budget hypotheses only exclude the artificial
out-of-fuel outcome of the embedding; they say nothing about the programs
themselves. -/
theorem execution_strategies_agree (P : List Value) (fuel F n : Nat)
    (htree : run_program fuel P ≠ .fuelOut)
    (hmach : machine_execute F n P ≠ .fuelOut) :
    machine_execute F n P = run_program fuel P ∧
    ∃ m, machine_execute fuel m P = run_program fuel P := by
  have htotal := machine_realises_tree_result fuel fuel (Nat.le_refl fuel) P _ rfl htree
  refine ⟨?_, htotal⟩
  obtain ⟨m, hm⟩ :=
    machine_realises_tree_result fuel (max fuel F) (Nat.le_max_left fuel F) P _ rfl htree
  have hmono : machine_run (max fuel F) n (seq_start P 0 initialStore []) =
      machine_run F n (seq_start P 0 initialStore []) :=
    machine_run_mono (Nat.le_max_right fuel F) n _ hmach
  have hGn_ne : machine_run (max fuel F) n (seq_start P 0 initialStore []) ≠ .fuelOut := by
    rw [hmono]; exact hmach
  have hGm_ne : machine_run (max fuel F) m (seq_start P 0 initialStore []) ≠ .fuelOut := by
    have hq : machine_run (max fuel F) m (seq_start P 0 initialStore []) =
        run_program fuel P := hm
    rw [hq]; exact htree
  have hdet := machine_run_det (max fuel F) n m (seq_start P 0 initialStore []) hGn_ne hGm_ne
  show machine_run F n (seq_start P 0 initialStore []) = run_program fuel P
  rw [← hmono, hdet]
  exact hm

theorem execution_strategies_agree_witness :
    run_program 50 demoProgram ≠ .fuelOut ∧
    machine_execute 30 500 demoProgram ≠ .fuelOut ∧
    (machine_execute 30 500 demoProgram = run_program 50 demoProgram ∧
     ∃ m, machine_execute 50 m demoProgram = run_program 50 demoProgram) :=
  ⟨ResT.ne_fuelOut_of_isFuelOut_false (by rfl),
   ResT.ne_fuelOut_of_isFuelOut_false (by rfl),
   execution_strategies_agree demoProgram 50 30 500
     (ResT.ne_fuelOut_of_isFuelOut_false (by rfl))
     (ResT.ne_fuelOut_of_isFuelOut_false (by rfl))⟩
